import Mathlib

/-!
# markelf: a shallow embedding of `markelf.c`

The program patches two bytes of an ELF identification header in place:
offset 4 (`EI_CLASS`) and offset 7 (`EI_OSABI`).

Modelling conventions.

* A C string is the list of its bytes (as natural numbers), without the
  terminating NUL.  `cstr` turns an ASCII literal into such a list.
* The process state `Proc` carries the file system (the files that can be
  opened read-write, with their contents), the one descriptor the program
  ever opens, `errno`, what was written to `stdout` and `stderr`, and the
  list of system calls made so far.  The `int fd` parameter of the C
  functions is this one descriptor and is therefore implicit.
* `lseek` and `write` can fail: `seekErr` / `writeErr` are the `errno` values
  the environment makes them fail with (`0`: the call succeeds).
* `int` is 32 bits wide, `long` is 64 bits wide, plain `char` is signed.
* Calls that succeed leave `errno` untouched.
* A function that terminates the process (`exit`, `err`, `errx`) yields the
  pair of the exit status and the final state.
-/

namespace Markelf

/-! ## Strings and the process state -/

/-- A C string: its bytes, without the terminating NUL. -/
abbrev CStr := List Nat

/-- The bytes of an ASCII literal. -/
def cstr (s : String) : CStr := s.toList.map Char.toNat

/-- System calls on the target file, as recorded in the trace. -/
inductive Event
  | open (path : CStr)
  | lseek (off : Nat)
  | write (byte : Nat)
  | close
  deriving DecidableEq, Repr

/-- Process state. -/
structure Proc where
  /-- files that `open(path, O_RDWR)` can open, with their contents -/
  fs : CStr → Option (List Nat)
  /-- the open descriptor: path of the file it refers to and its file offset -/
  fd : Option (CStr × Nat)
  errno : Nat
  /-- what was written to `stdout`, one entry per call -/
  out : List CStr
  /-- what was written to `stderr`, one entry per call -/
  err : List CStr
  /-- system calls made on the target file, oldest first -/
  trace : List Event
  /-- `errno` that `lseek` fails with (`0`: it succeeds) -/
  seekErr : Nat
  /-- `errno` that `write` fails with (`0`: it succeeds) -/
  writeErr : Nat

/-- State of a freshly started process over the file system `fs`. -/
def Proc.start (fs : CStr → Option (List Nat)) (seekErr writeErr : Nat) : Proc :=
  { fs := fs, fd := none, errno := 0, out := [], err := [], trace := [],
    seekErr := seekErr, writeErr := writeErr }

def EBADF : Nat := 9
def ERANGE : Nat := 34
def EXIT_SUCCESS : Int := 0
def EXIT_FAILURE : Int := 1

/-- Content of a file after one byte `b` is written at offset `pos`: the byte
    at `pos` is replaced, or the file is extended (with a hole of zero bytes
    when `pos` lies beyond its end). -/
def putByte (c : List Nat) (pos b : Nat) : List Nat :=
  if pos < c.length then c.set pos b
  else c ++ List.replicate (pos - c.length) 0 ++ [b]

/-- `lseek(fd, off, SEEK_SET)`: the new offset, or `-1` with `errno` set. -/
def lseek (off : Nat) (p : Proc) : Int × Proc :=
  let p := { p with trace := p.trace ++ [Event.lseek off] }
  match p.fd with
  | none => (-1, { p with errno := EBADF })
  | some (path, _) =>
    if p.seekErr ≠ 0 then (-1, { p with errno := p.seekErr })
    else (off, { p with fd := some (path, off) })

/-- `write(fd, bw, 1)` of the one byte `b`: the number of bytes written, or
    `-1` with `errno` set. -/
def write (b : Nat) (p : Proc) : Int × Proc :=
  let p := { p with trace := p.trace ++ [Event.write b] }
  match p.fd with
  | none => (-1, { p with errno := EBADF })
  | some (path, pos) =>
    if p.writeErr ≠ 0 then (-1, { p with errno := p.writeErr })
    else
      let c := putByte ((p.fs path).getD []) pos b
      (1, { p with fs := fun q => if q = path then some c else p.fs q,
                   fd := some (path, pos + 1) })

/-- `open(path, O_RDWR)`: `0` or more on success (the descriptor), `-1` when
    the file cannot be opened. -/
def openRdwr (path : CStr) (p : Proc) : Int × Proc :=
  let p := { p with trace := p.trace ++ [Event.open path] }
  match p.fs path with
  | none => (-1, { p with errno := 2 })
  | some _ => (3, { p with fd := some (path, 0) })

/-- `close(fd)`. -/
def close (p : Proc) : Proc :=
  let p := { p with trace := p.trace ++ [Event.close] }
  match p.fd with
  | none => { p with errno := EBADF }
  | some _ => { p with fd := none }

/-- `warn(fmt)` / `warnx(fmt)`: one message on `stderr`. -/
def warn (msg : CStr) (p : Proc) : Proc := { p with err := p.err ++ [msg] }

/-- `err(status, fmt)` / `errx(status, fmt)`: one message on `stderr`, then the
    process exits with `status`. -/
def errx (status : Int) (msg : CStr) (p : Proc) : Int × Proc :=
  (status, { p with err := p.err ++ [msg] })

/-- `fprintf(stdout, ...)` of an already formatted line. -/
def printOut (line : CStr) (p : Proc) : Proc := { p with out := p.out ++ [line] }

/-! ## The patch functions -/

def ELF_CLASS_A32 : Nat := 1
def ELF_CLASS_A64 : Nat := 2

/-- The byte stored by `bw[0] = (char)v`. -/
def toByte (v : Int) : Nat := (v % 256).toNat

/-- Mark the ELF class (either as 32-bit or 64-bit). -/
def mark_elf_class (is_32b : Int) (p : Proc) : Int × Proc :=
  let (r, p1) := lseek 4 p
  if r = -1 then (-1, warn (cstr "lseek()") p1)
  else
    let bw := if is_32b ≤ 0 then ELF_CLASS_A32 else ELF_CLASS_A64
    let (w, p2) := write bw p1
    if w < 0 then (-1, warn (cstr "write()") p2)
    else (0, p2)

/-- Mark the OS ABI to a specific ABI. -/
def mark_elf_osabi (vabi : Int) (p : Proc) : Int × Proc :=
  if vabi > 18 then (-1, warn (cstr "cannot set an unknown ABI version.") p)
  else
    let (r, p1) := lseek 7 p
    if r < 0 then (-1, warn (cstr "lseek()") p1)
    else
      let (w, p2) := write (toByte vabi) p1
      if w < 0 then (-1, warn (cstr "write()") p2)
      else (0, p2)

/-! ## Number and name resolution -/

/-- The value of a plain `char` holding byte `b` (plain `char` is signed). -/
def charVal (b : Nat) : Int := if b < 128 then (b : Int) else (b : Int) - 256

/-- Macro `IS_DIGIT(x)`, `((unsigned int)*arg - '0' < 10)`: the macro ignores
    its parameter and tests the first character of `arg` (the NUL of an empty
    string included), in `unsigned int` arithmetic. -/
def IS_DIGIT (arg : CStr) : Bool :=
  decide ((charVal (arg.headD 0) - 48) % 4294967296 < 10)

def LONG_MAX : Int := 9223372036854775807
def LONG_MIN : Int := -9223372036854775808

/-- `isspace` in the C locale. -/
def isspace (c : Nat) : Bool := c = 32 || (9 ≤ c && c ≤ 13)

/-- `isdigit`. -/
def isdigit (c : Nat) : Bool := 48 ≤ c && c ≤ 57

/-- The digit run at the start of `s`: the number accumulated onto `acc` and the
    count of characters consumed added to `n`. -/
def strtolDigits : CStr → Nat → Nat → Nat × Nat
  | [], acc, n => (acc, n)
  | c :: s, acc, n =>
    if isdigit c then strtolDigits s (acc * 10 + (c - 48)) (n + 1) else (acc, n)

/-- `strtol(s, &eptr, 10)`: the value returned, the offset of `eptr` in `s`,
    and the value stored in `errno` (`0`: `errno` is not touched).  Leading
    white space and one sign are skipped; without a digit nothing is consumed;
    a value out of the range of `long` is clamped and reported as `ERANGE`. -/
def strtol (s : CStr) : Int × Nat × Nat :=
  let ws := (s.takeWhile isspace).length
  let s1 := s.drop ws
  let neg := s1.head? = some 45
  let sign := if s1.head? = some 45 ∨ s1.head? = some 43 then 1 else 0
  let (v, k) := strtolDigits (s1.drop sign) 0 0
  if k = 0 then (0, 0, 0)
  else
    let x : Int := if neg then -(v : Int) else (v : Int)
    if x > LONG_MAX then (LONG_MAX, ws + sign + k, ERANGE)
    else if x < LONG_MIN then (LONG_MIN, ws + sign + k, ERANGE)
    else (x, ws + sign + k, 0)

/-- The conversion `(int)ival` of a `long` to a 32-bit `int`. -/
def toInt32 (x : Int) : Int := (x + 2147483648) % 4294967296 - 2147483648

/-- Convert the string to an integer.  The left result is the process exiting
    inside the function. -/
def ascii_to_int (s : CStr) (p : Proc) : (Int × Proc) ⊕ (Int × Proc) :=
  let (ival, eptr, e) := strtol s
  let p1 := if e ≠ 0 then { p with errno := e } else p
  if p1.errno ≠ 0 then .inl (errx EXIT_FAILURE (cstr "strtol()") p1)
  else if eptr = 0 then .inl (errx EXIT_FAILURE (cstr "error: invalid ABI number.") p1)
  else .inr (toInt32 ival, p1)

/-- `tolower` in the C locale. -/
def tolower (c : Nat) : Nat := if 65 ≤ c ∧ c ≤ 90 then c + 32 else c

/-- `strcasecmp(a, b)`: zero when the strings are equal ignoring case, else the
    difference of the first pair of lowered characters that differ (the
    terminating NUL counts as character 0). -/
def strcasecmp : CStr → CStr → Int
  | [], [] => 0
  | [], b :: _ => 0 - (tolower b : Int)
  | a :: _, [] => (tolower a : Int)
  | a :: s, b :: t =>
    if tolower a = tolower b then strcasecmp s t
    else (tolower a : Int) - (tolower b : Int)

/-- Key value storage structure. -/
structure kvstorage where
  key : Int
  val : CStr
  deriving DecidableEq, Repr

/-- The table `kv` of `main`. -/
def kv : List kvstorage :=
  [ ⟨0, cstr "sysv"⟩, ⟨1, cstr "hpux"⟩,
    ⟨2, cstr "netbsd"⟩, ⟨3, cstr "linux"⟩,
    ⟨4, cstr "hurd"⟩, ⟨6, cstr "solaris"⟩,
    ⟨7, cstr "aix"⟩, ⟨8, cstr "irix"⟩,
    ⟨9, cstr "freebsd"⟩, ⟨10, cstr "tru64"⟩,
    ⟨11, cstr "modesto"⟩, ⟨12, cstr "openbsd"⟩,
    ⟨13, cstr "openvms"⟩, ⟨14, cstr "nonstopkernel"⟩,
    ⟨15, cstr "aros"⟩, ⟨16, cstr "fenix"⟩,
    ⟨17, cstr "cloudabi"⟩, ⟨18, cstr "openvos"⟩ ]

/-- The loop of `main` over the table: the key of the first entry whose name
    equals `arg` ignoring case (`some vabi` stands for `one_ok = 1`). -/
def kvLookup : List kvstorage → CStr → Option Int
  | [], _ => none
  | e :: rest, arg =>
    if strcasecmp e.val arg = 0 then some e.key else kvLookup rest arg

/-! ## Option scanning

`getopt_long` belongs to the C library.  It is modelled by the sequence of
values its successive calls return for an argument vector, in the default
(permuting) mode: arguments that are not options are skipped and end up, in
their order, after the options; `--` ends the options. -/

/-- One return value of `getopt_long` other than the final `-1`. -/
inductive GetoptRet
  /-- an option character, with `optarg` (empty when the option takes none) -/
  | opt (c : Nat) (optarg : CStr)
  /-- `'?'`, after the diagnostic `msg` was printed on `stderr` -/
  | bad (msg : CStr)
  deriving DecidableEq, Repr

def no_argument : Nat := 0
def required_argument : Nat := 1

/-- An entry of a `struct option` array; `flag` is `NULL` in all of them. -/
structure LongOption where
  name : CStr
  has_arg : Nat
  val : Nat
  deriving DecidableEq, Repr

/-- The array `loptions` of `main`, without its terminating null entry. -/
def loptions : List LongOption :=
  [ ⟨cstr "class", no_argument, 99⟩,
    ⟨cstr "type", required_argument, 116⟩,
    ⟨cstr "to64", no_argument, 98⟩,
    ⟨cstr "help", no_argument, 104⟩ ]

/-- The short option string `"ct:bh"` of `main`. -/
def optstring : CStr := cstr "ct:bh"

/-- Look the option character `c` up in an option string: `none` when it is
    not an option, else whether it takes an argument. -/
def shortSpec : CStr → Nat → Option Bool
  | [], _ => none
  | x :: rest, c =>
    if x = c ∧ c ≠ 58 then some (rest.head? = some 58) else shortSpec rest c

/-- The returns of `getopt_long` for the characters of one short option
    argument (after its `-`), and whether the following argument `next` was
    taken as an option argument. -/
def shortOptions : List Nat → Option CStr → List GetoptRet × Bool
  | [], _ => ([], false)
  | c :: cs, next =>
    match shortSpec optstring c with
    | none =>
      let r := shortOptions cs next
      (GetoptRet.bad (cstr "invalid option") :: r.1, r.2)
    | some false =>
      let r := shortOptions cs next
      (GetoptRet.opt c [] :: r.1, r.2)
    | some true =>
      if cs ≠ [] then ([GetoptRet.opt c cs], false)
      else match next with
        | some a => ([GetoptRet.opt c a], true)
        | none => ([GetoptRet.bad (cstr "option requires an argument")], false)

/-- The return of `getopt_long` for one long option argument (after its `--`),
    and whether the following argument `next` was taken as its argument.  A
    name matches an entry exactly or, failing that, as the prefix of exactly
    one entry; `=value` attaches an argument. -/
def longOption (body : CStr) (next : Option CStr) : GetoptRet × Bool :=
  let name := body.takeWhile (fun c => c ≠ 61)
  let value : Option CStr :=
    if name.length < body.length then some (body.drop (name.length + 1)) else none
  let cands :=
    match loptions.find? (fun o => o.name = name) with
    | some o => [o]
    | none => loptions.filter (fun o => name.isPrefixOf o.name)
  match cands with
  | [] => (GetoptRet.bad (cstr "unrecognized option"), false)
  | [o] =>
    if o.has_arg = no_argument then
      match value with
      | some _ => (GetoptRet.bad (cstr "option doesn't allow an argument"), false)
      | none => (GetoptRet.opt o.val [], false)
    else
      match value with
      | some v => (GetoptRet.opt o.val v, false)
      | none =>
        match next with
        | some a => (GetoptRet.opt o.val a, true)
        | none => (GetoptRet.bad (cstr "option requires an argument"), false)
  | _ => (GetoptRet.bad (cstr "option is ambiguous"), false)

/-- The values returned by the successive calls of
    `getopt_long(argc, argv, "ct:bh", loptions, NULL)` over the arguments after
    `argv[0]`, up to the final `-1`, and the arguments left at `argv + optind`
    after that. -/
def getoptSeq : List CStr → List GetoptRet × List CStr
  | [] => ([], [])
  | a :: tl =>
    let skip := match tl with
      | [] => ([], [])
      | _ :: tl2 => getoptSeq tl2
    let keep := getoptSeq tl
    if a = [45, 45] then ([], tl)
    else if a.take 2 = [45, 45] then
      let r := longOption (a.drop 2) tl.head?
      let more := if r.2 then skip else keep
      (r.1 :: more.1, more.2)
    else if a.head? = some 45 ∧ a ≠ [45] then
      let r := shortOptions (a.drop 1) tl.head?
      let more := if r.2 then skip else keep
      (r.1 ++ more.1, more.2)
    else (keep.1, a :: keep.2)

/-! ## The program -/

/-- Options structure. -/
structure opts where
  opt : Int
  bopt : Int
  copt : Int
  topt : Int
  deriving DecidableEq, Repr

/-- The text printed by `print_usage`. -/
def usageText : CStr :=
  cstr ("* markelf *\n"
    ++ "usage: [c, class], [t, type], [b, to32], [h, help]\n"
    ++ "types: sysv(0), hpux(1), netbsd(2), linux(3), hurd(4)\n"
    ++ "solaris(6), aix(7), irix(8), freebsd(9), tru64(10)\n"
    ++ "modesto(11), openbsd(12), openvms(13), nonstopkernel(14)\n"
    ++ "aros(15), fenix(16), cloudabi(17), openvos(18)\n")

/-- Print the usage information and exit. -/
def print_usage (status : Int) (p : Proc) : Int × Proc :=
  if status = EXIT_SUCCESS then (status, { p with out := p.out ++ [usageText] })
  else (status, { p with err := p.err ++ [usageText] })

/-- The `while`/`switch` loop of `main` over the values `getopt_long` returns:
    either the process exits inside the loop, or the loop ends with the
    options and the last `optarg` of `-t` (`arg`). -/
def optLoop : List GetoptRet → opts → CStr → Proc → (Int × Proc) ⊕ (opts × CStr)
  | [], o, arg, _ => .inr ({ o with opt := -1 }, arg)
  | GetoptRet.opt c optarg :: rest, o, arg, p =>
    if c = 99 then optLoop rest { o with opt := c, copt := 1 } arg p
    else if c = 116 then optLoop rest { o with opt := c, topt := 1 } optarg p
    else if c = 98 then optLoop rest { o with opt := c, bopt := 1 } arg p
    else if c = 104 then .inl (print_usage EXIT_SUCCESS p)
    else .inl (EXIT_FAILURE, p)
  | GetoptRet.bad msg :: _, _, _, p => .inl (EXIT_FAILURE, warn msg p)

/-- Lines 157 to 190 of `main`: the options are cleared, the option loop runs,
    and `argv` is advanced to the remaining arguments.  `arg` is not
    initialised in the source and is read only when `topt` is set; it starts
    as the empty string here. -/
def parseOptions (argv : List CStr) (p : Proc) :
    (Int × Proc) ⊕ (opts × CStr × List CStr) :=
  let r := getoptSeq argv.tail
  match optLoop r.1 { opt := 0, bopt := 0, copt := 0, topt := 0 } [] p with
  | .inl e => .inl e
  | .inr (o, arg) => .inr (o, arg, r.2)

/-- The success line of the class patch. -/
def classLine (path : CStr) (bopt : Int) : CStr :=
  if bopt ≠ 0 then cstr "ok: marked '" ++ path ++ cstr "' as 64-bit binary.\n"
  else cstr "ok: marked '" ++ path ++ cstr "' as 32-bit binary.\n"

/-- The success line of the ABI patch. -/
def typeLine (path arg : CStr) : CStr :=
  cstr "ok: marking '" ++ path ++ cstr "' ABI to '" ++ arg ++ cstr "'.\n"

/-- Lines 209 to 218 of `main`: when we provide the `--class` option. -/
def classStep (o : opts) (path : CStr) (p : Proc) : Proc :=
  if o.copt ≠ 0 then printOut (classLine path o.bopt) (mark_elf_class o.bopt p).2
  else p

/-- Lines 220 to 250 of `main`: when we provide the `--type` option, with the
    table `kv` of `main` as a parameter.  The left result is the process
    exiting inside this part. -/
def typeStep (kv : List kvstorage) (o : opts) (path arg : CStr) (p : Proc) :
    (Int × Proc) ⊕ Proc :=
  if o.topt ≠ 0 then
    if IS_DIGIT arg then
      match ascii_to_int arg p with
      | .inl e => .inl e
      | .inr (vabi, p1) => .inr (printOut (typeLine path arg) (mark_elf_osabi vabi p1).2)
    else
      match kvLookup kv arg with
      | some vabi => .inr (printOut (typeLine path arg) (mark_elf_osabi vabi p).2)
      | none => .inl (errx EXIT_FAILURE (cstr "error: invalid ABI name.") (close p))
  else .inr p

/-- The function `main`: exit status and final state of a run with argument
    vector `argv` (`argv[0]` is the program name) from state `p`. -/
def main (argv : List CStr) (p : Proc) : Int × Proc :=
  if argv.length < 2 then errx EXIT_FAILURE (cstr "error: no args are provided.") p
  else
    match parseOptions argv p with
    | .inl e => e
    | .inr (o, arg, rest) =>
      if o.bopt ≠ 0 ∧ o.copt = 0 then
        errx EXIT_FAILURE
          (cstr "error: option '-b' cannot be used without the use of option '-c'.") p
      else
        match rest with
        | [] => errx EXIT_FAILURE (cstr "error: no file path was provided.") p
        | path :: _ =>
          if o.copt = 0 ∧ o.topt = 0 then
            errx EXIT_FAILURE (cstr "error: no option is provided.") p
          else
            let r := openRdwr path p
            if r.1 < 0 then
              errx EXIT_FAILURE
                (cstr "error: cannot open file '" ++ path
                  ++ cstr "' for reading and writing.") r.2
            else
              match typeStep kv o path arg (classStep o path r.2) with
              | .inl e => e
              | .inr p2 => (0, close p2)

/-- A run of the program from a fresh process over the file system `fs`. -/
def run (fs : CStr → Option (List Nat)) (seekErr writeErr : Nat) (argv : List CStr) :
    Int × Proc :=
  main argv (Proc.start fs seekErr writeErr)

/-! ## Vocabulary of the specification -/

/-- The decimal value of a string of digits, most significant digit first. -/
def decVal (s : CStr) : Nat := Nat.ofDigits 10 (s.reverse.map (fun c => c - 48))

/-- Every character of `s` is an ASCII decimal digit. -/
def allDigits (s : CStr) : Bool := s.all (fun c => decide (48 ≤ c ∧ c ≤ 57))

/-- Character `b` is character `a`, or the same ASCII letter in the other case. -/
def sameLetter (a b : Nat) : Bool :=
  decide (b = a) || decide (97 ≤ a ∧ a ≤ 122 ∧ b + 32 = a)
    || decide (65 ≤ a ∧ a ≤ 90 ∧ b = a + 32)

/-- String `m` is string `n` with the ASCII case of some of its letters changed. -/
def caseVariant : CStr → CStr → Bool
  | [], [] => true
  | a :: s, b :: t => sameLetter a b && caseVariant s t
  | _, _ => false

/-- Strings `a` and `b` are equal ignoring ASCII case. -/
def eqIgnoreCase (a b : CStr) : Bool := decide (a.map tolower = b.map tolower)

/-- A return value of `getopt_long` on which the option loop goes on: one of
    `c`, `t`, `b` (not `h`, not `'?'`). -/
def GetoptRet.goesOn : GetoptRet → Bool
  | GetoptRet.opt c _ => c = 99 || c = 116 || c = 98
  | GetoptRet.bad _ => false

/-- The return value is the option character `c`. -/
def GetoptRet.isOpt (c : Nat) : GetoptRet → Bool
  | GetoptRet.opt d _ => d = c
  | GetoptRet.bad _ => false

/-- Option scanning of `argv` runs to its end: every value `getopt_long`
    returns is one of `c`, `t`, `b` (no `-h`, no `'?'`). -/
def scanCompletes (argv : List CStr) : Bool :=
  (getoptSeq argv.tail).1.all GetoptRet.goesOn

/-- The options of `argv` include the one with option character `c`. -/
def hasOption (c : Nat) (argv : List CStr) : Bool :=
  (getoptSeq argv.tail).1.any (GetoptRet.isOpt c)

/-- The bytes of `s` can be those of a C string: none is NUL, each fits a byte. -/
def isCStr (s : CStr) : Bool := s.all (fun c => decide (0 < c ∧ c < 256))

/-- The first character of `s` is an ASCII decimal digit. -/
def startsWithDigit (s : CStr) : Bool :=
  match s with
  | [] => false
  | c :: _ => decide (48 ≤ c ∧ c ≤ 57)

/-- The byte at offset `i` of the file `path`, if the file has one. -/
def byteAt (fs : CStr → Option (List Nat)) (path : CStr) (i : Nat) : Option Nat :=
  (fs path).bind (fun f => f[i]?)

/-- A file system with one file, `f`, of 16 zero bytes. -/
def demoFs : CStr → Option (List Nat) :=
  fun q => if q = cstr "f" then some (List.replicate 16 0) else none

/-- A process with a descriptor open on `f`, at offset 0. -/
def demoOpen : Proc :=
  { Proc.start demoFs 0 0 with fd := some (cstr "f", 0) }

/-- The arguments left at `argv + optind` after option scanning: the first of
    them is the target file path. -/
def operands (argv : List CStr) : List CStr := (getoptSeq argv.tail).2

/-- The run `r` over the file system `fs` ended with exit status 1 after the
    one message `msg` on `stderr`, with nothing on `stdout`, without a system
    call on any file (none was opened) and with every file as it was. -/
def failsWith (r : Int × Proc) (fs : CStr → Option (List Nat)) (msg : CStr) : Prop :=
  r.1 = 1 ∧ r.2.err = [msg] ∧ r.2.out = [] ∧ r.2.trace = [] ∧ r.2.fs = fs

/-- Message of the dependent-flag error. -/
def msgDependentFlag : CStr :=
  cstr "error: option '-b' cannot be used without the use of option '-c'."

/-- Message of the missing-file error. -/
def msgMissingFile : CStr := cstr "error: no file path was provided."

/-- Message of the no-action error. -/
def msgNoAction : CStr := cstr "error: no option is provided."

/-! ## Facts about the patch functions -/

theorem putByte_length (f : List Nat) (pos b : Nat) (h : pos < f.length) :
    (putByte f pos b).length = f.length := by
  simp [putByte, h]

theorem putByte_get_self (f : List Nat) (pos b : Nat) (h : pos < f.length) :
    (putByte f pos b)[pos]? = some b := by
  simp [putByte, h]

theorem putByte_get_other (f : List Nat) (pos b i : Nat) (h : pos < f.length)
    (hi : i ≠ pos) : (putByte f pos b)[i]? = f[i]? := by
  simp [putByte, h, List.getElem?_set, Ne.symm hi]

/-- With a descriptor open and a working device, `mark_elf_class` seeks to
    offset 4, writes the class byte there and returns 0. -/
theorem mark_elf_class_ok (p : Proc) (path : CStr) (off : Nat) (v : Int)
    (hfd : p.fd = some (path, off)) (hseek : p.seekErr = 0) (hwrite : p.writeErr = 0) :
    mark_elf_class v p =
      (0, { p with
            fs := fun q => if q = path then
                some (putByte ((p.fs path).getD []) 4 (if v ≤ 0 then 1 else 2)) else p.fs q,
            fd := some (path, 5),
            trace := p.trace ++ [Event.lseek 4, Event.write (if v ≤ 0 then 1 else 2)] }) := by
  simp [mark_elf_class, lseek, write, hfd, hseek, hwrite, ELF_CLASS_A32, ELF_CLASS_A64]

/-- With a descriptor open and a working device, `mark_elf_osabi` on a code of
    at most 18 seeks to offset 7, writes the code's byte there and returns 0. -/
theorem mark_elf_osabi_ok (p : Proc) (path : CStr) (off : Nat) (v : Int) (hv : v ≤ 18)
    (hfd : p.fd = some (path, off)) (hseek : p.seekErr = 0) (hwrite : p.writeErr = 0) :
    mark_elf_osabi v p =
      (0, { p with
            fs := fun q => if q = path then
                some (putByte ((p.fs path).getD []) 7 (toByte v)) else p.fs q,
            fd := some (path, 8),
            trace := p.trace ++ [Event.lseek 7, Event.write (toByte v)] }) := by
  simp [mark_elf_osabi, lseek, write, hfd, hseek, hwrite, not_lt.mpr hv]

theorem toByte_small (v : Int) (h0 : 0 ≤ v) (h : v ≤ 255) : ((toByte v : Nat) : Int) = v := by
  unfold toByte
  omega

/-- C2: on an open file of at least 5 bytes, with a device on which seeking and
    writing work, `mark_elf_class` returns 0 and the file then has byte 4 equal
    to 2 when 64-bit is wanted and to 1 otherwise, with its length and every
    other byte unchanged. -/
theorem mark_elf_class_patches (p : Proc) (path : CStr) (off : Nat) (content : List Nat)
    (want64 : Bool)
    (hfd : p.fd = some (path, off)) (hfs : p.fs path = some content)
    (hlen : 5 ≤ content.length) (hseek : p.seekErr = 0) (hwrite : p.writeErr = 0) :
    (mark_elf_class (if want64 then 1 else 0) p).1 = 0 ∧
    ∃ g, (mark_elf_class (if want64 then 1 else 0) p).2.fs path = some g ∧
      g.length = content.length ∧
      g[4]? = some (if want64 then 2 else 1) ∧
      ∀ i, i ≠ 4 → g[i]? = content[i]? := by
  rw [mark_elf_class_ok p path off _ hfd hseek hwrite]
  refine ⟨rfl, putByte content 4 (if want64 then 2 else 1), ?_, ?_, ?_, ?_⟩
  · cases want64 <;> simp [hfs]
  · exact putByte_length _ _ _ (by omega)
  · exact putByte_get_self _ _ _ (by omega)
  · intro i hi; exact putByte_get_other _ _ _ _ (by omega) hi

/-- Witness of C2: the 64-bit class patch of the 16 zero bytes of `f`. -/
theorem mark_elf_class_patches_witness :
    (mark_elf_class (if true then 1 else 0) demoOpen).1 = 0 ∧
    ∃ g, (mark_elf_class (if true then 1 else 0) demoOpen).2.fs (cstr "f") = some g ∧
      g.length = (List.replicate 16 0).length ∧
      g[4]? = some (if true then 2 else 1) ∧
      ∀ i, i ≠ 4 → g[i]? = (List.replicate 16 0)[i]? :=
  mark_elf_class_patches demoOpen (cstr "f") 0 (List.replicate 16 0) true
    (by decide) (by decide) (by decide) (by decide) (by decide)

/-- C3: on an open file of at least 8 bytes, with a device on which seeking and
    writing work, `mark_elf_osabi` on a code between 0 and 18 returns 0 and the
    file then has byte 7 equal to the code, with its length and every other
    byte unchanged. -/
theorem mark_elf_osabi_patches (p : Proc) (path : CStr) (off : Nat) (content : List Nat)
    (code : Int)
    (hfd : p.fd = some (path, off)) (hfs : p.fs path = some content)
    (hlen : 8 ≤ content.length) (h0 : 0 ≤ code) (h18 : code ≤ 18)
    (hseek : p.seekErr = 0) (hwrite : p.writeErr = 0) :
    (mark_elf_osabi code p).1 = 0 ∧
    ∃ g, (mark_elf_osabi code p).2.fs path = some g ∧
      g.length = content.length ∧
      g[7]?.map Int.ofNat = some code ∧
      ∀ i, i ≠ 7 → g[i]? = content[i]? := by
  rw [mark_elf_osabi_ok p path off _ h18 hfd hseek hwrite]
  refine ⟨rfl, putByte content 7 (toByte code), ?_, ?_, ?_, ?_⟩
  · simp [hfs]
  · exact putByte_length _ _ _ (by omega)
  · rw [putByte_get_self _ _ _ (by omega)]
    simpa using toByte_small code h0 (by omega)
  · intro i hi; exact putByte_get_other _ _ _ _ (by omega) hi

/-- Witness of C3: the ABI patch with code 3 of the 16 zero bytes of `f`. -/
theorem mark_elf_osabi_patches_witness :
    (mark_elf_osabi 3 demoOpen).1 = 0 ∧
    ∃ g, (mark_elf_osabi 3 demoOpen).2.fs (cstr "f") = some g ∧
      g.length = (List.replicate 16 0).length ∧
      g[7]?.map Int.ofNat = some 3 ∧
      ∀ i, i ≠ 7 → g[i]? = (List.replicate 16 0)[i]? :=
  mark_elf_osabi_patches demoOpen (cstr "f") 0 (List.replicate 16 0) 3
    (by decide) (by decide) (by decide) (by decide) (by decide) (by decide) (by decide)

/-- C4: for every code above 18, `mark_elf_osabi` returns -1, makes no system
    call and leaves every file as it was. -/
theorem mark_elf_osabi_rejects (p : Proc) (code : Int) (h : 18 < code) :
    (mark_elf_osabi code p).1 = -1 ∧
    (mark_elf_osabi code p).2.fs = p.fs ∧
    (mark_elf_osabi code p).2.trace = p.trace := by
  simp [mark_elf_osabi, h, warn]

/-- Witness of C4: code 19 on the open file `f`. -/
theorem mark_elf_osabi_rejects_witness :
    (mark_elf_osabi 19 demoOpen).1 = -1 ∧
    (mark_elf_osabi 19 demoOpen).2.fs = demoOpen.fs ∧
    (mark_elf_osabi 19 demoOpen).2.trace = demoOpen.trace :=
  mark_elf_osabi_rejects demoOpen 19 (by decide)

/-! ## The ABI table and the name lookup -/

/-- Counterexample to C7 as stated: the table does not have 17 entries, whatever
    is said of its codes. -/
theorem kv_not_17_entries :
    ¬ (kv.length = 17 ∧
       ∀ c : Int, c ∈ kv.map kvstorage.key ↔
         c ∈ [0, 1, 2, 3, 4, 6, 7, 8, 9, 10, 11, 12, 13, 14, 15, 16, 17, 18]) := by
  intro h
  exact absurd h.1 (by decide)

/-- C7, amended: the table has 18 entries, its codes are, in order, 0 to 4 and
    6 to 18, code 5 is absent, and every code lies between 0 and 18. -/
theorem kv_codes :
    kv.length = 18 ∧
    kv.map kvstorage.key = [0, 1, 2, 3, 4, 6, 7, 8, 9, 10, 11, 12, 13, 14, 15, 16, 17, 18] ∧
    (5 : Int) ∉ kv.map kvstorage.key ∧
    (kv.all fun e => decide (0 ≤ e.key ∧ e.key ≤ 18)) = true := by
  refine ⟨by decide, by decide, by decide, by decide⟩

theorem tolower_sameLetter (a b : Nat) (h : sameLetter a b = true) :
    tolower b = tolower a := by
  simp only [sameLetter, Bool.or_eq_true, decide_eq_true_eq] at h
  unfold tolower
  rcases h with (h | h) | h
  · subst h; rfl
  · obtain ⟨h1, h2, h3⟩ := h
    rw [if_pos (by omega), if_neg (by omega)]
    omega
  · obtain ⟨h1, h2, h3⟩ := h
    rw [if_neg (by omega), if_pos (by omega)]
    omega

/-- Changing the case of letters of the second string leaves `strcasecmp`
    unchanged. -/
theorem strcasecmp_caseVariant (x n m : CStr) (h : caseVariant n m = true) :
    strcasecmp x m = strcasecmp x n := by
  induction x generalizing n m with
  | nil =>
    cases n <;> cases m <;> simp_all [caseVariant, strcasecmp]
    rename_i a s b t
    rw [tolower_sameLetter a b h.1]
  | cons c x ih =>
    cases n <;> cases m <;> simp_all [caseVariant, strcasecmp]
    rename_i a s b t
    rw [tolower_sameLetter a b h.1, ih s t h.2]

theorem kvLookup_caseVariant (tab : List kvstorage) (n m : CStr)
    (h : caseVariant n m = true) : kvLookup tab m = kvLookup tab n := by
  induction tab with
  | nil => rfl
  | cons e rest ih => simp [kvLookup, strcasecmp_caseVariant e.val n m h, ih]

/-- A case variant of a string that starts with a lower-case letter does not
    start with a digit. -/
theorem IS_DIGIT_caseVariant (n m : CStr) (h : caseVariant n m = true)
    (hn : 97 ≤ n.headD 0 ∧ n.headD 0 ≤ 122) : IS_DIGIT m = false := by
  cases n with
  | nil => simp at hn
  | cons a s =>
    cases m with
    | nil => simp [caseVariant] at h
    | cons b t =>
      simp only [caseVariant, Bool.and_eq_true, sameLetter, Bool.or_eq_true,
        decide_eq_true_eq] at h
      simp only [List.headD_cons] at hn
      simp only [IS_DIGIT, List.headD_cons, charVal, decide_eq_false_iff_not]
      have hb : 65 ≤ b ∧ b ≤ 122 := by omega
      rw [if_pos (by omega)]
      omega

/-- Every name of the table starts with a lower-case letter and is found under
    its own code. -/
theorem kv_names :
    ∀ e ∈ kv, (97 ≤ e.val.headD 0 ∧ e.val.headD 0 ≤ 122) ∧ kvLookup kv e.val = some e.key := by
  decide

/-- C6: for every entry of the table and every string `m` that is the entry's
    name with the case of some letters changed, the `-t` argument `m` is not
    taken as a number, the table loop finds the entry's code for `m` as it does
    for the name itself, and the type step patches with that code. -/
theorem lookup_case_insensitive (e : kvstorage) (m : CStr) (he : e ∈ kv)
    (hm : caseVariant e.val m = true) :
    IS_DIGIT m = false ∧
    kvLookup kv m = some e.key ∧
    kvLookup kv m = kvLookup kv e.val ∧
    ∀ (o : opts) (path : CStr) (p : Proc), o.topt ≠ 0 →
      typeStep kv o path m p =
        .inr (printOut (typeLine path m) (mark_elf_osabi e.key p).2) := by
  have hk := kv_names e he
  have h1 := IS_DIGIT_caseVariant e.val m hm hk.1
  have h2 := kvLookup_caseVariant kv e.val m hm
  refine ⟨h1, h2.trans hk.2, h2, ?_⟩
  intro o path p ht
  simp [typeStep, ht, h1, h2.trans hk.2]

/-- Witness of C6: `LiNuX` resolves to the code of `linux`. -/
theorem lookup_case_insensitive_witness :
    IS_DIGIT (cstr "LiNuX") = false ∧
    kvLookup kv (cstr "LiNuX") = some 3 ∧
    kvLookup kv (cstr "LiNuX") = kvLookup kv (cstr "linux") ∧
    ∀ (o : opts) (path : CStr) (p : Proc), o.topt ≠ 0 →
      typeStep kv o path (cstr "LiNuX") p =
        .inr (printOut (typeLine path (cstr "LiNuX")) (mark_elf_osabi 3 p).2) :=
  lookup_case_insensitive ⟨3, cstr "linux"⟩ (cstr "LiNuX") (by decide) (by decide)

/-! ## Numeric `-t` arguments -/

theorem decVal_cons (c : Nat) (s : CStr) :
    decVal (c :: s) = decVal s + 10 ^ s.length * (c - 48) := by
  simp [decVal, Nat.ofDigits_append, Nat.ofDigits_singleton]

/-- On a string of digits, the digit loop of `strtol` consumes the whole
    string and accumulates its decimal value. -/
theorem strtolDigits_allDigits (s : CStr) (acc n : Nat) (h : allDigits s = true) :
    strtolDigits s acc n = (decVal s + 10 ^ s.length * acc, n + s.length) := by
  induction s generalizing acc n with
  | nil => simp [strtolDigits, decVal]
  | cons c s ih =>
    simp only [allDigits, List.all_cons, Bool.and_eq_true, decide_eq_true_eq] at h
    have hc : isdigit c = true := by simp [isdigit, h.1]
    rw [strtolDigits, if_pos hc, ih _ _ (by simpa [allDigits] using h.2), decVal_cons]
    simp only [List.length_cons, Prod.mk.injEq]
    constructor
    · ring
    · omega

/-- A string of digits that does not overflow `long` is converted by `strtol`
    to its decimal value, as a whole, without touching `errno`. -/
theorem strtol_allDigits (s : CStr) (hne : s ≠ []) (h : allDigits s = true)
    (hv : (decVal s : Int) ≤ LONG_MAX) :
    strtol s = ((decVal s : Int), s.length, 0) := by
  cases s with
  | nil => exact absurd rfl hne
  | cons c t =>
    have hc : 48 ≤ c ∧ c ≤ 57 := by
      simp only [allDigits, List.all_cons, Bool.and_eq_true, decide_eq_true_eq] at h
      exact h.1
    have hsp : isspace c = false := by
      simp only [isspace, Bool.or_eq_false_iff, decide_eq_false_iff_not, Bool.and_eq_false_iff]
      omega
    have h45 : c ≠ 45 := by omega
    have h43 : c ≠ 43 := by omega
    have hlo : ¬ ((decVal (c :: t) : Int) < LONG_MIN) := by
      unfold LONG_MIN; omega
    simp only [strtol, List.takeWhile_cons, hsp, Bool.false_eq_true, if_false, List.length_nil,
      List.drop_zero, List.head?_cons, Option.some.injEq, h45, h43, or_self, List.drop_zero,
      strtolDigits_allDigits (c :: t) 0 0 h, decide_False]
    simp [not_lt.mpr hv, hlo]

theorem IS_DIGIT_of_digit (c : Nat) (t : CStr) (hc : 48 ≤ c ∧ c ≤ 57) :
    IS_DIGIT (c :: t) = true := by
  simp only [IS_DIGIT, List.headD_cons, charVal, decide_eq_true_eq]
  rw [if_pos (by omega)]
  omega

theorem IS_DIGIT_allDigits (s : CStr) (hne : s ≠ []) (h : allDigits s = true) :
    IS_DIGIT s = true := by
  cases s with
  | nil => exact absurd rfl hne
  | cons c t =>
    simp only [allDigits, List.all_cons, Bool.and_eq_true, decide_eq_true_eq] at h
    exact IS_DIGIT_of_digit c t h.1

/-- With `errno` clear, `ascii_to_int` returns the decimal value of a string of
    digits whose value fits an `int`. -/
theorem ascii_to_int_allDigits (s : CStr) (p : Proc) (hne : s ≠ []) (h : allDigits s = true)
    (hv : decVal s ≤ 2147483647) (he : p.errno = 0) :
    ascii_to_int s p = .inr ((decVal s : Int), p) := by
  have hl : (decVal s : Int) ≤ LONG_MAX := by unfold LONG_MAX; omega
  have hlen : s.length ≠ 0 := by
    cases s with
    | nil => exact absurd rfl hne
    | cons c t => simp
  have h32 : toInt32 (decVal s : Int) = (decVal s : Int) := by
    unfold toInt32; omega
  simp [ascii_to_int, strtol_allDigits s hne h hl, he, hlen, h32]

/-- C9: for every non-empty string of ASCII digits whose decimal value is at most
    255, the `-t` argument is taken as a number, `ascii_to_int` returns exactly
    that value (with `errno` clear, as it is unless an earlier call failed), and
    the type step patches with it whatever the name table holds. -/
theorem numeric_argument_resolves (s : CStr) (hne : s ≠ []) (hd : allDigits s = true)
    (hv : decVal s ≤ 255) :
    IS_DIGIT s = true ∧
    (∀ p : Proc, p.errno = 0 → ascii_to_int s p = .inr ((decVal s : Int), p)) ∧
    ∀ (tab : List kvstorage) (o : opts) (path : CStr) (p : Proc),
      o.topt ≠ 0 → p.errno = 0 →
      typeStep tab o path s p =
        .inr (printOut (typeLine path s) (mark_elf_osabi (decVal s : Int) p).2) := by
  have h1 := IS_DIGIT_allDigits s hne hd
  refine ⟨h1, fun p he => ascii_to_int_allDigits s p hne hd (by omega) he, ?_⟩
  intro tab o path p ht he
  simp [typeStep, ht, h1, ascii_to_int_allDigits s p hne hd (by omega) he]

/-- Witness of C9: the argument `007` resolves to 7. -/
theorem numeric_argument_resolves_witness :
    IS_DIGIT (cstr "007") = true ∧
    (∀ p : Proc, p.errno = 0 →
      ascii_to_int (cstr "007") p = .inr ((decVal (cstr "007") : Int), p)) ∧
    ∀ (tab : List kvstorage) (o : opts) (path : CStr) (p : Proc),
      o.topt ≠ 0 → p.errno = 0 →
      typeStep tab o path (cstr "007") p =
        .inr (printOut (typeLine path (cstr "007"))
          (mark_elf_osabi (decVal (cstr "007") : Int) p).2) :=
  numeric_argument_resolves (cstr "007") (by decide) (by decide) (by decide)

/-! ## Option scanning and validation -/

/-- When every value returned by `getopt_long` is one of `c`, `t`, `b`, the
    option loop runs to its end, and a flag is set at the end exactly when it
    was set before or its option occurred. -/
theorem optLoop_goesOn (evs : List GetoptRet) (o : opts) (arg : CStr) (p : Proc)
    (h : evs.all GetoptRet.goesOn = true) :
    ∃ o2 arg2, optLoop evs o arg p = .inr (o2, arg2) ∧
      (o2.bopt ≠ 0 ↔ (o.bopt ≠ 0 ∨ evs.any (GetoptRet.isOpt 98) = true)) ∧
      (o2.copt ≠ 0 ↔ (o.copt ≠ 0 ∨ evs.any (GetoptRet.isOpt 99) = true)) ∧
      (o2.topt ≠ 0 ↔ (o.topt ≠ 0 ∨ evs.any (GetoptRet.isOpt 116) = true)) := by
  induction evs generalizing o arg with
  | nil => exact ⟨_, _, rfl, by simp, by simp, by simp⟩
  | cons e evs ih =>
    rw [List.all_cons, Bool.and_eq_true] at h
    cases e with
    | bad msg => simp [GetoptRet.goesOn] at h
    | opt c a =>
      have hc : c = 99 ∨ c = 116 ∨ c = 98 := by
        simpa [GetoptRet.goesOn, or_assoc] using h.1
      rcases hc with hc | hc | hc
      · subst hc
        obtain ⟨o2, arg2, h1, h2, h3, h4⟩ := ih { o with opt := 99, copt := 1 } arg h.2
        exact ⟨o2, arg2, by simpa [optLoop] using h1,
          by simpa [GetoptRet.isOpt] using h2, by simpa [GetoptRet.isOpt] using h3,
          by simpa [GetoptRet.isOpt] using h4⟩
      · subst hc
        obtain ⟨o2, arg2, h1, h2, h3, h4⟩ := ih { o with opt := 116, topt := 1 } a h.2
        exact ⟨o2, arg2, by simpa [optLoop] using h1,
          by simpa [GetoptRet.isOpt] using h2, by simpa [GetoptRet.isOpt] using h3,
          by simpa [GetoptRet.isOpt] using h4⟩
      · subst hc
        obtain ⟨o2, arg2, h1, h2, h3, h4⟩ := ih { o with opt := 98, bopt := 1 } arg h.2
        exact ⟨o2, arg2, by simpa [optLoop] using h1,
          by simpa [GetoptRet.isOpt] using h2, by simpa [GetoptRet.isOpt] using h3,
          by simpa [GetoptRet.isOpt] using h4⟩

/-- Counterexample to C10 as stated: with `-b -h` the options include `-b` and
    not `-c`, yet the run prints the usage text and exits with status 0. -/
theorem to64_with_help_succeeds :
    hasOption 98 [cstr "markelf", cstr "-b", cstr "-h"] = true ∧
    hasOption 99 [cstr "markelf", cstr "-b", cstr "-h"] = false ∧
    (run demoFs 0 0 [cstr "markelf", cstr "-b", cstr "-h"]).1 = 0 ∧
    (run demoFs 0 0 [cstr "markelf", cstr "-b", cstr "-h"]).2.out = [usageText] :=
  ⟨by decide, by decide, by decide, rfl⟩

/-- C10, amended: every invocation whose option scanning runs to its end (no
    `-h`, no option error) and whose options include `-b` but not `-c` exits
    with status 1 after the one message that `-b` needs `-c`, without a system
    call on any file and with every file as it was. -/
theorem to64_requires_class (fs : CStr → Option (List Nat)) (seekErr writeErr : Nat)
    (argv : List CStr) (hs : scanCompletes argv = true)
    (hb : hasOption 98 argv = true) (hc : hasOption 99 argv = false) :
    (run fs seekErr writeErr argv).1 = 1 ∧
    (run fs seekErr writeErr argv).2.err =
      [cstr "error: option '-b' cannot be used without the use of option '-c'."] ∧
    (run fs seekErr writeErr argv).2.out = [] ∧
    (run fs seekErr writeErr argv).2.trace = [] ∧
    (run fs seekErr writeErr argv).2.fs = fs := by
  have hlen : ¬ argv.length < 2 := by
    intro hl
    have ht : argv.tail = [] := by
      cases argv with
      | nil => rfl
      | cons a tl =>
        cases tl with
        | nil => rfl
        | cons b tl2 =>
          simp only [List.length_cons] at hl
          omega
    simp [hasOption, ht, getoptSeq] at hb
  obtain ⟨o2, arg2, h1, h2, h3, _⟩ :=
    optLoop_goesOn (getoptSeq argv.tail).1 ⟨0, 0, 0, 0⟩ [] (Proc.start fs seekErr writeErr) hs
  have hb2 : o2.bopt ≠ 0 := h2.mpr (Or.inr hb)
  have hc2 : o2.copt = 0 := by
    by_contra hne
    rcases h3.mp hne with h | h
    · exact h rfl
    · rw [hasOption] at hc
      rw [hc] at h
      cases h
  have hrun : run fs seekErr writeErr argv =
      errx EXIT_FAILURE
        (cstr "error: option '-b' cannot be used without the use of option '-c'.")
        (Proc.start fs seekErr writeErr) := by
    simp [run, main, hlen, parseOptions, h1, hb2, hc2]
  rw [hrun]
  simp [errx, EXIT_FAILURE, Proc.start]

/-- Witness of C10, amended: `markelf -b -t linux f`. -/
theorem to64_requires_class_witness :
    (run demoFs 0 0 [cstr "markelf", cstr "-b", cstr "-t", cstr "linux", cstr "f"]).1 = 1 ∧
    (run demoFs 0 0 [cstr "markelf", cstr "-b", cstr "-t", cstr "linux", cstr "f"]).2.err =
      [cstr "error: option '-b' cannot be used without the use of option '-c'."] ∧
    (run demoFs 0 0 [cstr "markelf", cstr "-b", cstr "-t", cstr "linux", cstr "f"]).2.out = [] ∧
    (run demoFs 0 0 [cstr "markelf", cstr "-b", cstr "-t", cstr "linux", cstr "f"]).2.trace = [] ∧
    (run demoFs 0 0 [cstr "markelf", cstr "-b", cstr "-t", cstr "linux", cstr "f"]).2.fs
      = demoFs :=
  to64_requires_class demoFs 0 0
    [cstr "markelf", cstr "-b", cstr "-t", cstr "linux", cstr "f"]
    (by decide) (by decide) (by decide)

/-! ## Runs with a `-t` argument -/

theorem putByte_4_get_7 (f : List Nat) (b : Nat) : (putByte f 4 b)[7]? = f[7]? := by
  unfold putByte
  split
  · simp [List.getElem?_set]
  · rename_i h
    rw [List.getElem?_eq_none (by simp; omega), List.getElem?_eq_none (by omega)]

/-- The class patch leaves byte 7 of every file as it was, whether or not its
    system calls succeed. -/
theorem mark_elf_class_byte7 (v : Int) (p : Proc) (q : CStr) :
    byteAt (mark_elf_class v p).2.fs q 7 = byteAt p.fs q 7 := by
  unfold mark_elf_class lseek write
  rcases hfd : p.fd with _ | ⟨path, off⟩
  · simp [warn]
  · by_cases hs : p.seekErr = 0 <;> by_cases hw : p.writeErr = 0 <;>
      simp [hs, hw, warn, byteAt]
    by_cases hq : q = path
    · subst hq
      rcases hf : p.fs q with _ | f <;> simp [putByte_4_get_7]
    · simp [hq]

theorem classStep_byte7 (o : opts) (path : CStr) (p : Proc) (q : CStr) :
    byteAt (classStep o path p).fs q 7 = byteAt p.fs q 7 := by
  unfold classStep
  split
  · simpa [printOut] using mark_elf_class_byte7 o.bopt p q
  · rfl

theorem tolower_eq_zero (c : Nat) (h : tolower c = 0) : c = 0 := by
  unfold tolower at h
  split at h <;> omega

/-- Between C strings, `strcasecmp` returns zero only for strings that are
    equal ignoring case. -/
theorem strcasecmp_eq_zero (a b : CStr) (ha : isCStr a = true) (hb : isCStr b = true)
    (h : strcasecmp a b = 0) : eqIgnoreCase a b = true := by
  induction a generalizing b with
  | nil =>
    cases b with
    | nil => simp [eqIgnoreCase]
    | cons c t =>
      simp only [isCStr, List.all_cons, Bool.and_eq_true, decide_eq_true_eq] at hb
      simp only [strcasecmp] at h
      have := tolower_eq_zero c (by omega)
      omega
  | cons x s ih =>
    simp only [isCStr, List.all_cons, Bool.and_eq_true, decide_eq_true_eq] at ha
    cases b with
    | nil =>
      simp only [strcasecmp] at h
      have := tolower_eq_zero x (by omega)
      omega
    | cons c t =>
      simp only [isCStr, List.all_cons, Bool.and_eq_true, decide_eq_true_eq] at hb
      simp only [strcasecmp] at h
      split at h
      · rename_i heq
        have := ih t (by simpa [isCStr] using ha.2) (by simpa [isCStr] using hb.2) h
        simp only [eqIgnoreCase, decide_eq_true_eq] at this
        simp [eqIgnoreCase, heq, this]
      · rename_i hne
        omega

theorem kv_isCStr : ∀ e ∈ kv, isCStr e.val = true := by decide

/-- The table loop finds nothing for a C string that equals no name of the
    table ignoring case. -/
theorem kvLookup_none (arg : CStr) (harg : isCStr arg = true)
    (hname : ∀ e ∈ kv, eqIgnoreCase e.val arg = false) : kvLookup kv arg = none := by
  have key : ∀ tab : List kvstorage, (∀ e ∈ tab, e ∈ kv) → kvLookup tab arg = none := by
    intro tab
    induction tab with
    | nil => intro _; rfl
    | cons e rest ih =>
      intro hsub
      have he : e ∈ kv := hsub e (List.mem_cons_self _ _)
      have hne : strcasecmp e.val arg ≠ 0 := by
        intro h0
        have := strcasecmp_eq_zero e.val arg (kv_isCStr e he) harg h0
        rw [hname e he] at this
        cases this
      simp only [kvLookup, if_neg hne]
      exact ih (fun x hx => hsub x (List.mem_cons_of_mem _ hx))
  exact key kv (fun _ h => h)

/-- On a C string the macro `IS_DIGIT` tells whether the first character is a
    decimal digit. -/
theorem IS_DIGIT_eq_startsWithDigit (arg : CStr) (harg : isCStr arg = true) :
    IS_DIGIT arg = startsWithDigit arg := by
  cases arg with
  | nil => decide
  | cons c t =>
    simp only [isCStr, List.all_cons, Bool.and_eq_true, decide_eq_true_eq] at harg
    simp only [IS_DIGIT, startsWithDigit, List.headD_cons, charVal]
    congr 1
    apply propext
    split <;> omega

theorem close_fs (q : Proc) : (close q).fs = q.fs := by
  unfold close
  dsimp only
  cases q.fd <;> rfl

/-- When option scanning ends with a file path among the remaining arguments,
    there were at least two arguments. -/
theorem parseOptions_length (argv : List CStr) (p : Proc) (o : opts) (arg path : CStr)
    (rest : List CStr) (hp : parseOptions argv p = .inr (o, arg, path :: rest)) :
    ¬ argv.length < 2 := by
  intro hl
  have ht : argv.tail = [] := by
    cases argv with
    | nil => rfl
    | cons a tl =>
      cases tl with
      | nil => rfl
      | cons b tl2 =>
        simp only [List.length_cons] at hl
        omega
  simp [parseOptions, ht, getoptSeq, optLoop] at hp

/-- Counterexample to C8 as stated: `3abc` is not made of digits only and is no
    table name, yet `markelf -t 3abc f` exits with status 0 and has changed
    byte 7 of `f` from 0 to 3. -/
theorem digit_prefix_argument_accepted :
    allDigits (cstr "3abc") = false ∧
    (kv.all fun e => !eqIgnoreCase e.val (cstr "3abc")) = true ∧
    (run demoFs 0 0 [cstr "markelf", cstr "-t", cstr "3abc", cstr "f"]).1 = 0 ∧
    (run demoFs 0 0 [cstr "markelf", cstr "-t", cstr "3abc", cstr "f"]).2.err = [] ∧
    byteAt demoFs (cstr "f") 7 = some 0 ∧
    byteAt (run demoFs 0 0 [cstr "markelf", cstr "-t", cstr "3abc", cstr "f"]).2.fs
      (cstr "f") 7 = some 3 := by
  refine ⟨by decide, by decide, by decide, by decide, by decide, by decide⟩

/-- C8, amended: in every run whose option scanning ends with `-t` given the
    argument `arg` and `path` as first remaining argument, `-b` not given
    without `-c`, and `path` a file that can be opened, if `arg` does not start
    with an ASCII digit and equals no table name ignoring case, then the run
    exits with status 1, its last message is "error: invalid ABI name.", and
    byte 7 of the file is as it was. -/
theorem unknown_abi_name_fails (fs : CStr → Option (List Nat)) (seekErr writeErr : Nat)
    (argv : List CStr) (o : opts) (arg path : CStr) (rest : List CStr) (content : List Nat)
    (hp : parseOptions argv (Proc.start fs seekErr writeErr) = .inr (o, arg, path :: rest))
    (ht : o.topt ≠ 0) (hbc : o.bopt ≠ 0 → o.copt ≠ 0)
    (hfs : fs path = some content)
    (harg : isCStr arg = true) (hnd : startsWithDigit arg = false)
    (hname : ∀ e ∈ kv, eqIgnoreCase e.val arg = false) :
    (run fs seekErr writeErr argv).1 = 1 ∧
    (run fs seekErr writeErr argv).2.err.getLast? = some (cstr "error: invalid ABI name.") ∧
    byteAt (run fs seekErr writeErr argv).2.fs path 7 = content[7]? := by
  have hlen := parseOptions_length argv _ o arg path rest hp
  have hd : IS_DIGIT arg = false := by rw [IS_DIGIT_eq_startsWithDigit arg harg, hnd]
  have hk := kvLookup_none arg harg hname
  have hbc2 : ¬ (o.bopt ≠ 0 ∧ o.copt = 0) := fun h => hbc h.1 h.2
  have hct : ¬ (o.copt = 0 ∧ o.topt = 0) := fun h => ht h.2
  have hopen : openRdwr path (Proc.start fs seekErr writeErr) =
      (3, { Proc.start fs seekErr writeErr with
            trace := [Event.open path], fd := some (path, 0) }) := by
    simp [openRdwr, Proc.start, hfs]
  have hrun : run fs seekErr writeErr argv =
      errx EXIT_FAILURE (cstr "error: invalid ABI name.")
        (close (classStep o path { Proc.start fs seekErr writeErr with
            trace := [Event.open path], fd := some (path, 0) })) := by
    simp only [run, main, hlen, if_false, hp, hbc2, hct, hopen, typeStep, ht, ne_eq,
      not_false_eq_true, if_true, hd, hk, Bool.false_eq_true]
    simp
  rw [hrun]
  refine ⟨rfl, by simp [errx], ?_⟩
  have h7 := classStep_byte7 o path { Proc.start fs seekErr writeErr with
            trace := [Event.open path], fd := some (path, 0) } path
  simp only [errx, close_fs]
  rw [h7]
  simp [byteAt, Proc.start, hfs]

/-- Witness of C8, amended: `markelf -t xyz123notaname f`. -/
theorem unknown_abi_name_fails_witness :
    (run demoFs 0 0 [cstr "markelf", cstr "-t", cstr "xyz123notaname", cstr "f"]).1 = 1 ∧
    (run demoFs 0 0 [cstr "markelf", cstr "-t", cstr "xyz123notaname", cstr "f"]).2.err.getLast?
      = some (cstr "error: invalid ABI name.") ∧
    byteAt (run demoFs 0 0 [cstr "markelf", cstr "-t", cstr "xyz123notaname", cstr "f"]).2.fs
      (cstr "f") 7 = (List.replicate 16 0)[7]? :=
  unknown_abi_name_fails demoFs 0 0
    [cstr "markelf", cstr "-t", cstr "xyz123notaname", cstr "f"]
    ⟨-1, 0, 0, 1⟩ (cstr "xyz123notaname") (cstr "f") [] (List.replicate 16 0)
    rfl (by decide) (by decide) (by decide) (by decide) (by decide) (by decide)

/-- With `errno` set, `ascii_to_int` on a string of digits that fits `long`
    exits with status 1 and leaves the files as they were. -/
theorem ascii_to_int_errno (s : CStr) (p : Proc) (hne : s ≠ []) (h : allDigits s = true)
    (hv : decVal s ≤ 2147483647) (he : p.errno ≠ 0) :
    ascii_to_int s p = .inl (errx EXIT_FAILURE (cstr "strtol()") p) := by
  have hl : (decVal s : Int) ≤ LONG_MAX := by unfold LONG_MAX; omega
  simp [ascii_to_int, strtol_allDigits s hne h hl, he]

/-- The type step leaves every file as it was when its argument is a string of
    digits with a value from 19 to 255: the code is refused, or the process
    exits before the patch. -/
theorem typeStep_numeric_refused (tab : List kvstorage) (o : opts) (path s : CStr) (p : Proc)
    (hne : s ≠ []) (hd : allDigits s = true) (h19 : 19 ≤ decVal s) (h255 : decVal s ≤ 255) :
    (match typeStep tab o path s p with
      | .inl e => e.2.fs
      | .inr q => q.fs) = p.fs := by
  unfold typeStep
  by_cases ht : o.topt ≠ 0
  · rw [if_pos ht, if_pos (IS_DIGIT_allDigits s hne hd)]
    by_cases he : p.errno = 0
    · rw [ascii_to_int_allDigits s p hne hd (by omega) he]
      simp [printOut, (mark_elf_osabi_rejects p (decVal s : Int) (by omega)).2.1]
    · rw [ascii_to_int_errno s p hne hd (by omega) he]
      simp [errx]
  · rw [if_neg ht]

/-- Counterexample to C5 as stated: `markelf -t 19 f` on 16 zero bytes leaves
    byte 7 at 0; it is not set to 19. -/
theorem numeric_19_not_written :
    allDigits (cstr "19") = true ∧ decVal (cstr "19") = 19 ∧
    byteAt (run demoFs 0 0 [cstr "markelf", cstr "-t", cstr "19", cstr "f"]).2.fs
      (cstr "f") 7 = some 0 ∧
    byteAt (run demoFs 0 0 [cstr "markelf", cstr "-t", cstr "19", cstr "f"]).2.fs
      (cstr "f") 7 ≠ some 19 ∧
    (run demoFs 0 0 [cstr "markelf", cstr "-t", cstr "19", cstr "f"]).2.err
      = [cstr "cannot set an unknown ABI version."] := by
  refine ⟨by decide, by decide, by decide, by decide, by decide⟩

/-- C5, amended: in every run whose option scanning ends with `-t` given a
    non-empty string of ASCII digits with a value from 19 to 255 and with `path`,
    a file that can be opened, as first remaining argument, byte 7 of the file
    is afterwards what it was before: the limit of 18 holds for numbers given
    on the command line as well. -/
theorem numeric_range_enforced (fs : CStr → Option (List Nat)) (seekErr writeErr : Nat)
    (argv : List CStr) (o : opts) (arg path : CStr) (rest : List CStr) (content : List Nat)
    (hp : parseOptions argv (Proc.start fs seekErr writeErr) = .inr (o, arg, path :: rest))
    (ht : o.topt ≠ 0) (hfs : fs path = some content)
    (hne : arg ≠ []) (hd : allDigits arg = true)
    (h19 : 19 ≤ decVal arg) (h255 : decVal arg ≤ 255) :
    byteAt (run fs seekErr writeErr argv).2.fs path 7 = content[7]? := by
  have hlen := parseOptions_length argv _ o arg path rest hp
  have hct : ¬ (o.copt = 0 ∧ o.topt = 0) := fun h => ht h.2
  have hopen : openRdwr path (Proc.start fs seekErr writeErr) =
      (3, { Proc.start fs seekErr writeErr with
            trace := [Event.open path], fd := some (path, 0) }) := by
    simp [openRdwr, Proc.start, hfs]
  have h7 := classStep_byte7 o path { Proc.start fs seekErr writeErr with
            trace := [Event.open path], fd := some (path, 0) } path
  have hty := typeStep_numeric_refused kv o path arg
    (classStep o path { Proc.start fs seekErr writeErr with
            trace := [Event.open path], fd := some (path, 0) }) hne hd h19 h255
  have h0 : byteAt fs path 7 = content[7]? := by simp [byteAt, hfs]
  simp only [run, main, hlen, if_false, hp]
  by_cases hbc : o.bopt ≠ 0 ∧ o.copt = 0
  · rw [if_pos hbc]
    simpa [errx, Proc.start] using h0
  · rw [if_neg hbc]
    simp only [hct, if_false, hopen]
    rw [if_neg (by decide)]
    rcases hr : typeStep kv o path arg
      (classStep o path { Proc.start fs seekErr writeErr with
            trace := [Event.open path], fd := some (path, 0) }) with e | q
    · rw [hr] at hty
      simp only [] at hty ⊢
      rw [hty, h7]
      simpa [Proc.start] using h0
    · rw [hr] at hty
      simp only [close_fs] at hty ⊢
      rw [hty, h7]
      simpa [Proc.start] using h0

/-- Witness of C5, amended: `markelf -t 19 f`. -/
theorem numeric_range_enforced_witness :
    byteAt (run demoFs 0 0 [cstr "markelf", cstr "-t", cstr "19", cstr "f"]).2.fs
      (cstr "f") 7 = (List.replicate 16 0)[7]? :=
  numeric_range_enforced demoFs 0 0 [cstr "markelf", cstr "-t", cstr "19", cstr "f"]
    ⟨-1, 0, 0, 1⟩ (cstr "19") (cstr "f") [] (List.replicate 16 0)
    rfl (by decide) (by decide) (by decide) (by decide) (by decide) (by decide)

/-! ## The run `-c -b -t linux` -/

/-- One step of the scan of the argument vector. -/
theorem getoptSeq_cons (a : CStr) (tl : List CStr) :
    getoptSeq (a :: tl) =
      if a = [45, 45] then ([], tl)
      else if a.take 2 = [45, 45] then
        let r := longOption (a.drop 2) tl.head?
        let more := if r.2 then getoptSeq tl.tail else getoptSeq tl
        (r.1 :: more.1, more.2)
      else if a.head? = some 45 ∧ a ≠ [45] then
        let r := shortOptions (a.drop 1) tl.head?
        let more := if r.2 then getoptSeq tl.tail else getoptSeq tl
        (r.1 ++ more.1, more.2)
      else ((getoptSeq tl).1, a :: (getoptSeq tl).2) := by
  cases tl with
  | nil => simp [getoptSeq]
  | cons b tl2 => rw [getoptSeq]; simp

/-- An argument that does not start with `-` is not an option: `getopt_long`
    skips it and it stays among the remaining arguments. -/
theorem getoptSeq_operand (a : CStr) (tl : List CStr) (h : a.head? ≠ some 45) :
    getoptSeq (a :: tl) = ((getoptSeq tl).1, a :: (getoptSeq tl).2) := by
  rw [getoptSeq_cons]
  cases a with
  | nil => simp
  | cons c t =>
    have hc : c ≠ 45 := by simpa using h
    cases t <;> simp [hc]

/-- The values `getopt_long` returns for `-c -b -t a path`. -/
theorem getoptSeq_c_b_t (a path : CStr) (h : path.head? ≠ some 45) :
    getoptSeq [cstr "-c", cstr "-b", cstr "-t", a, path] =
      ([GetoptRet.opt 99 [], GetoptRet.opt 98 [], GetoptRet.opt 116 a], [path]) := by
  have e1 : cstr "-c" = [45, 99] := by decide
  have e2 : cstr "-b" = [45, 98] := by decide
  have e3 : cstr "-t" = [45, 116] := by decide
  have s1 : shortSpec optstring 99 = some false := by decide
  have s2 : shortSpec optstring 98 = some false := by decide
  have s3 : shortSpec optstring 116 = some true := by decide
  have hop := getoptSeq_operand path [] h
  rw [e1, e2, e3]
  simp [getoptSeq_cons, shortOptions, s1, s2, s3, hop]
  simp [getoptSeq]

theorem classLine_mentions_64_bit (path : CStr) : cstr "64-bit" <:+: classLine path 1 := by
  refine ⟨cstr "ok: marked '" ++ path ++ cstr "' as ", cstr " binary.\n", ?_⟩
  have e : cstr "' as 64-bit binary.\n" = cstr "' as " ++ (cstr "64-bit" ++ cstr " binary.\n") := by
    decide
  simp [classLine, e]

theorem typeLine_mentions_linux (path : CStr) : cstr "linux" <:+: typeLine path (cstr "linux") := by
  refine ⟨cstr "ok: marking '" ++ path ++ cstr "' ABI to '", cstr "'.\n", ?_⟩
  simp [typeLine]

theorem putByte_4_7 (f : List Nat) (a b : Nat) (h : 8 ≤ f.length) :
    (putByte (putByte f 4 a) 7 b).length = f.length ∧
    (putByte (putByte f 4 a) 7 b)[4]? = some a ∧
    (putByte (putByte f 4 a) 7 b)[7]? = some b ∧
    ∀ i, i ≠ 4 → i ≠ 7 → (putByte (putByte f 4 a) 7 b)[i]? = f[i]? := by
  have h4 : (putByte f 4 a).length = f.length := putByte_length _ _ _ (by omega)
  refine ⟨?_, ?_, ?_, ?_⟩
  · rw [putByte_length _ _ _ (by omega), h4]
  · rw [putByte_get_other _ _ _ _ (by omega) (by decide), putByte_get_self _ _ _ (by omega)]
  · rw [putByte_get_self _ _ _ (by omega)]
  · intro i hi4 hi7
    rw [putByte_get_other _ _ _ _ (by omega) hi7, putByte_get_other _ _ _ _ (by omega) hi4]

/-- C1: for every file of at least 8 bytes that can be opened, on a device on
    which seeking and writing work, the run with `-c -b -t linux` and the file
    (a path that does not start with `-`) exits with status 0, leaves the file
    with byte 4 equal to 2 and byte 7 equal to 3, its length and every other
    byte unchanged, and prints two lines: the first mentions `64-bit`, the
    second `linux`. -/
theorem class64_linux_run (fs : CStr → Option (List Nat)) (prog path : CStr)
    (content : List Nat) (hpath : path.head? ≠ some 45)
    (hfs : fs path = some content) (hlen : 8 ≤ content.length) :
    (run fs 0 0 [prog, cstr "-c", cstr "-b", cstr "-t", cstr "linux", path]).1 = 0 ∧
    (∃ g,
      (run fs 0 0 [prog, cstr "-c", cstr "-b", cstr "-t", cstr "linux", path]).2.fs path
        = some g ∧
      g.length = content.length ∧ g[4]? = some 2 ∧ g[7]? = some 3 ∧
      ∀ i, i ≠ 4 → i ≠ 7 → g[i]? = content[i]?) ∧
    ∃ l1 l2,
      (run fs 0 0 [prog, cstr "-c", cstr "-b", cstr "-t", cstr "linux", path]).2.out
        = [l1, l2] ∧
      cstr "64-bit" <:+: l1 ∧ cstr "linux" <:+: l2 := by
  have hparse : parseOptions [prog, cstr "-c", cstr "-b", cstr "-t", cstr "linux", path]
      (Proc.start fs 0 0) = .inr (⟨-1, 1, 1, 1⟩, cstr "linux", [path]) := by
    rw [parseOptions, List.tail_cons, getoptSeq_c_b_t _ path hpath]
    simp [optLoop]
  have hopen : openRdwr path (Proc.start fs 0 0) =
      (3, { Proc.start fs 0 0 with trace := [Event.open path], fd := some (path, 0) }) := by
    simp [openRdwr, Proc.start, hfs]
  have hd : IS_DIGIT (cstr "linux") = false := by decide
  have hk : kvLookup kv (cstr "linux") = some 3 := by decide
  have hb : toByte 3 = 3 := by decide
  have hrun : run fs 0 0 [prog, cstr "-c", cstr "-b", cstr "-t", cstr "linux", path] =
      (0, { Proc.start fs 0 0 with
            fs := fun q => if q = path then some (putByte (putByte content 4 2) 7 3) else fs q,
            out := [classLine path 1, typeLine path (cstr "linux")],
            trace := [Event.open path, Event.lseek 4, Event.write 2, Event.lseek 7,
              Event.write 3, Event.close] }) := by
    simp only [run, main, List.length_cons, List.length_nil, hparse, hopen]
    simp [classStep, typeStep, hd, hk, printOut, close, Proc.start, hfs, hb,
      mark_elf_class, mark_elf_osabi, lseek, write, ELF_CLASS_A32, ELF_CLASS_A64]
    funext q
    by_cases hq : q = path <;> simp [hq]
  rw [hrun]
  have hb47 := putByte_4_7 content 2 3 hlen
  refine ⟨rfl, ⟨putByte (putByte content 4 2) 7 3, by simp, hb47.1, hb47.2.1, hb47.2.2.1,
    hb47.2.2.2⟩, classLine path 1, typeLine path (cstr "linux"), rfl, classLine_mentions_64_bit path,
    typeLine_mentions_linux path⟩

/-- Witness of C1: the run on the file `f` of 16 zero bytes. -/
theorem class64_linux_run_witness :
    (run demoFs 0 0
      [cstr "markelf", cstr "-c", cstr "-b", cstr "-t", cstr "linux", cstr "f"]).1 = 0 ∧
    (∃ g,
      (run demoFs 0 0
        [cstr "markelf", cstr "-c", cstr "-b", cstr "-t", cstr "linux", cstr "f"]).2.fs
          (cstr "f") = some g ∧
      g.length = (List.replicate 16 0).length ∧ g[4]? = some 2 ∧ g[7]? = some 3 ∧
      ∀ i, i ≠ 4 → i ≠ 7 → g[i]? = (List.replicate 16 0)[i]?) ∧
    ∃ l1 l2,
      (run demoFs 0 0
        [cstr "markelf", cstr "-c", cstr "-b", cstr "-t", cstr "linux", cstr "f"]).2.out
          = [l1, l2] ∧
      cstr "64-bit" <:+: l1 ∧ cstr "linux" <:+: l2 :=
  class64_linux_run demoFs (cstr "markelf") (cstr "f") (List.replicate 16 0)
    (by decide) (by decide) (by decide)

/-! ## Validation after option scanning -/

theorem tail_nil_of_short (argv : List CStr) (hl : argv.length < 2) : argv.tail = [] := by
  cases argv with
  | nil => rfl
  | cons a tl =>
    cases tl with
    | nil => rfl
    | cons b tl2 =>
      simp only [List.length_cons] at hl
      omega

/-- When option scanning runs to its end, it yields the remaining arguments and
    flags that are set exactly for the options that occurred. -/
theorem parseOptions_goesOn (argv : List CStr) (p : Proc) (hs : scanCompletes argv = true) :
    ∃ o arg, parseOptions argv p = .inr (o, arg, operands argv) ∧
      (o.bopt ≠ 0 ↔ hasOption 98 argv = true) ∧
      (o.copt ≠ 0 ↔ hasOption 99 argv = true) ∧
      (o.topt ≠ 0 ↔ hasOption 116 argv = true) := by
  obtain ⟨o2, arg2, h1, h2, h3, h4⟩ :=
    optLoop_goesOn (getoptSeq argv.tail).1 ⟨0, 0, 0, 0⟩ [] p hs
  refine ⟨o2, arg2, ?_, ?_, ?_, ?_⟩
  · simp [parseOptions, h1, operands]
  · simpa [hasOption] using h2
  · simpa [hasOption] using h3
  · simpa [hasOption] using h4

/-- After a complete scan with `-b` and without `-c`, the run reports the
    dependent-flag error. -/
theorem run_dependent_flag (fs : CStr → Option (List Nat)) (seekErr writeErr : Nat)
    (argv : List CStr) (hlen : ¬ argv.length < 2) (hs : scanCompletes argv = true)
    (hb : hasOption 98 argv = true) (hc : hasOption 99 argv = false) :
    failsWith (run fs seekErr writeErr argv) fs msgDependentFlag := by
  obtain ⟨o, arg, hp, h1, h2, _⟩ := parseOptions_goesOn argv (Proc.start fs seekErr writeErr) hs
  have hb2 : o.bopt ≠ 0 := h1.mpr hb
  have hc2 : o.copt = 0 := by
    by_contra hne
    rw [h2.mp hne] at hc
    cases hc
  have hrun : run fs seekErr writeErr argv =
      errx EXIT_FAILURE msgDependentFlag (Proc.start fs seekErr writeErr) := by
    simp [run, main, hlen, hp, hb2, hc2, msgDependentFlag]
  rw [hrun]
  simp [failsWith, errx, EXIT_FAILURE, Proc.start]

/-- After a complete scan that does not have `-b` without `-c` and leaves no
    argument, the run reports the missing-file error. -/
theorem run_missing_file (fs : CStr → Option (List Nat)) (seekErr writeErr : Nat)
    (argv : List CStr) (hlen : ¬ argv.length < 2) (hs : scanCompletes argv = true)
    (hbc : ¬ (hasOption 98 argv = true ∧ hasOption 99 argv = false))
    (hfile : operands argv = []) :
    failsWith (run fs seekErr writeErr argv) fs msgMissingFile := by
  obtain ⟨o, arg, hp, h1, h2, _⟩ := parseOptions_goesOn argv (Proc.start fs seekErr writeErr) hs
  have hbc2 : ¬ (o.bopt ≠ 0 ∧ o.copt = 0) := by
    intro h
    apply hbc
    refine ⟨h1.mp h.1, ?_⟩
    cases hh : hasOption 99 argv
    · rfl
    · exact absurd h.2 (h2.mpr hh)
  have hrun : run fs seekErr writeErr argv =
      errx EXIT_FAILURE msgMissingFile (Proc.start fs seekErr writeErr) := by
    simp only [run, main, hlen, if_false, hp, hbc2, hfile, msgMissingFile]
  rw [hrun]
  simp [failsWith, errx, EXIT_FAILURE, Proc.start]

/-- After a complete scan that does not have `-b` without `-c`, leaves an
    argument, and has neither `-c` nor `-t`, the run reports the no-action
    error. -/
theorem run_no_action (fs : CStr → Option (List Nat)) (seekErr writeErr : Nat)
    (argv : List CStr) (hlen : ¬ argv.length < 2) (hs : scanCompletes argv = true)
    (hbc : ¬ (hasOption 98 argv = true ∧ hasOption 99 argv = false))
    (hfile : operands argv ≠ [])
    (hc : hasOption 99 argv = false) (ht : hasOption 116 argv = false) :
    failsWith (run fs seekErr writeErr argv) fs msgNoAction := by
  obtain ⟨o, arg, hp, h1, h2, h3⟩ := parseOptions_goesOn argv (Proc.start fs seekErr writeErr) hs
  have hc2 : o.copt = 0 := by
    by_contra hne
    rw [h2.mp hne] at hc
    cases hc
  have ht2 : o.topt = 0 := by
    by_contra hne
    rw [h3.mp hne] at ht
    cases ht
  have hbc2 : ¬ (o.bopt ≠ 0 ∧ o.copt = 0) := fun h => hbc ⟨h1.mp h.1, hc⟩
  obtain ⟨path, rest, hop⟩ := List.exists_cons_of_ne_nil hfile
  have hrun : run fs seekErr writeErr argv =
      errx EXIT_FAILURE msgNoAction (Proc.start fs seekErr writeErr) := by
    simp only [run, main, hlen, if_false, hp, hbc2, hop, msgNoAction]
    simp [hc2, ht2]
  rw [hrun]
  simp [failsWith, errx, EXIT_FAILURE, Proc.start]

/-- Counterexample to C11 as stated: for `markelf -b f` option scanning
    succeeds, a file path is supplied and neither `-c` nor `-t` is set, yet the
    message is the dependent-flag error, not the no-action error. -/
theorem to64_alone_not_no_action :
    scanCompletes [cstr "markelf", cstr "-b", cstr "f"] = true ∧
    operands [cstr "markelf", cstr "-b", cstr "f"] = [cstr "f"] ∧
    hasOption 99 [cstr "markelf", cstr "-b", cstr "f"] = false ∧
    hasOption 116 [cstr "markelf", cstr "-b", cstr "f"] = false ∧
    (run demoFs 0 0 [cstr "markelf", cstr "-b", cstr "f"]).2.err = [msgDependentFlag] ∧
    (run demoFs 0 0 [cstr "markelf", cstr "-b", cstr "f"]).2.err ≠ [msgNoAction] := by
  refine ⟨by decide, by decide, by decide, by decide, by decide, by decide⟩

/-- C11, amended: every invocation whose option scanning runs to its end, that
    supplies a file path, and in which none of `-c`, `-t` and `-b` is set exits
    with status 1 after the one message "error: no option is provided.",
    without opening or changing any file. -/
theorem no_action_fails (fs : CStr → Option (List Nat)) (seekErr writeErr : Nat)
    (argv : List CStr) (hs : scanCompletes argv = true) (hfile : operands argv ≠ [])
    (hc : hasOption 99 argv = false) (ht : hasOption 116 argv = false)
    (hb : hasOption 98 argv = false) :
    failsWith (run fs seekErr writeErr argv) fs (cstr "error: no option is provided.") := by
  have hlen : ¬ argv.length < 2 := by
    intro hl
    apply hfile
    simp [operands, tail_nil_of_short argv hl, getoptSeq]
  have hbc : ¬ (hasOption 98 argv = true ∧ hasOption 99 argv = false) := by
    rw [hb]
    intro h
    cases h.1
  exact run_no_action fs seekErr writeErr argv hlen hs hbc hfile hc ht

/-- Witness of C11, amended: `markelf -- f`. -/
theorem no_action_fails_witness :
    failsWith (run demoFs 0 0 [cstr "markelf", cstr "--", cstr "f"]) demoFs
      (cstr "error: no option is provided.") :=
  no_action_fails demoFs 0 0 [cstr "markelf", cstr "--", cstr "f"]
    (by decide) (by decide) (by decide) (by decide) (by decide)

/-- C17: when option scanning has run to its end, the checks come in a fixed
    order, each without a system call on any file: `-b` without `-c` gives the
    dependent-flag error whatever else holds; otherwise no remaining argument
    gives the missing-file error whatever flags are set; otherwise neither `-c`
    nor `-t` gives the no-action error. -/
theorem validation_order (fs : CStr → Option (List Nat)) (seekErr writeErr : Nat)
    (argv : List CStr) (hlen : 2 ≤ argv.length) (hs : scanCompletes argv = true) :
    ((hasOption 98 argv = true ∧ hasOption 99 argv = false) →
      failsWith (run fs seekErr writeErr argv) fs msgDependentFlag) ∧
    (¬ (hasOption 98 argv = true ∧ hasOption 99 argv = false) → operands argv = [] →
      failsWith (run fs seekErr writeErr argv) fs msgMissingFile) ∧
    (¬ (hasOption 98 argv = true ∧ hasOption 99 argv = false) → operands argv ≠ [] →
      hasOption 99 argv = false → hasOption 116 argv = false →
      failsWith (run fs seekErr writeErr argv) fs msgNoAction) := by
  have hl : ¬ argv.length < 2 := by omega
  exact ⟨fun h => run_dependent_flag fs seekErr writeErr argv hl hs h.1 h.2,
    fun hbc hfile => run_missing_file fs seekErr writeErr argv hl hs hbc hfile,
    fun hbc hfile hc ht => run_no_action fs seekErr writeErr argv hl hs hbc hfile hc ht⟩

/-- Witness of C17: `markelf -b` (no `-c`, no file path) reports the
    dependent-flag error, `markelf --` (no flags, no file path) the
    missing-file error, and `markelf -- f` the no-action error. -/
theorem validation_order_witness :
    failsWith (run demoFs 0 0 [cstr "markelf", cstr "-b"]) demoFs msgDependentFlag ∧
    failsWith (run demoFs 0 0 [cstr "markelf", cstr "--"]) demoFs msgMissingFile ∧
    failsWith (run demoFs 0 0 [cstr "markelf", cstr "--", cstr "f"]) demoFs msgNoAction :=
  ⟨(validation_order demoFs 0 0 [cstr "markelf", cstr "-b"] (by decide) (by decide)).1
      (by decide),
    (validation_order demoFs 0 0 [cstr "markelf", cstr "--"] (by decide) (by decide)).2.1
      (by decide) (by decide),
    (validation_order demoFs 0 0 [cstr "markelf", cstr "--", cstr "f"] (by decide)
      (by decide)).2.2 (by decide) (by decide) (by decide) (by decide)⟩

/-! ## Help -/

/-- When `h` is returned after values on which the loop goes on, the option
    loop ends in `print_usage(EXIT_SUCCESS)`. -/
theorem optLoop_help (pre post : List GetoptRet) (a : CStr) (o : opts) (arg : CStr) (p : Proc)
    (h : pre.all GetoptRet.goesOn = true) :
    optLoop (pre ++ GetoptRet.opt 104 a :: post) o arg p = .inl (print_usage EXIT_SUCCESS p) := by
  induction pre generalizing o arg with
  | nil => simp [optLoop]
  | cons e pre ih =>
    rw [List.all_cons, Bool.and_eq_true] at h
    cases e with
    | bad msg => simp [GetoptRet.goesOn] at h
    | opt c b =>
      have hc : c = 99 ∨ c = 116 ∨ c = 98 := by
        simpa [GetoptRet.goesOn, or_assoc] using h.1
      rcases hc with hc | hc | hc <;> subst hc <;> simp [optLoop, ih _ _ h.2]

theorem cstr_append (s t : String) : cstr (s ++ t) = cstr s ++ cstr t := by
  simp [cstr]

/-- The usage text contains the string `markelf`. -/
theorem usageText_mentions_markelf : cstr "markelf" <:+: usageText := by
  have e : cstr "* markelf *\n" = cstr "* " ++ (cstr "markelf" ++ cstr " *\n") := by decide
  unfold usageText
  rw [cstr_append, cstr_append, cstr_append, cstr_append, cstr_append, e]
  simp only [List.append_assoc]
  exact ⟨cstr "* ", _, by rw [List.append_assoc]⟩

/-- Counterexample to C14 as stated: in `markelf -x -h` the option `-h` is
    given, yet the run exits with status 1 on the invalid option `-x` and
    prints no usage text. -/
theorem help_after_bad_option_fails :
    hasOption 104 [cstr "markelf", cstr "-x", cstr "-h"] = true ∧
    (run demoFs 0 0 [cstr "markelf", cstr "-x", cstr "-h"]).1 = 1 ∧
    (run demoFs 0 0 [cstr "markelf", cstr "-x", cstr "-h"]).2.out = [] := by
  refine ⟨by decide, by decide, by decide⟩

/-- C14, amended: every invocation in which `getopt_long` returns `h` (for `-h`
    or `--help`) with only `c`, `t`, `b` returned before it prints the usage
    text, which contains `markelf`, on `stdout` and exits with status 0,
    whatever follows and whatever flags precede, without a system call on any
    file and with every file as it was. -/
theorem help_prints_usage (fs : CStr → Option (List Nat)) (seekErr writeErr : Nat)
    (argv : List CStr) (pre post : List GetoptRet) (a : CStr)
    (hev : (getoptSeq argv.tail).1 = pre ++ GetoptRet.opt 104 a :: post)
    (hpre : pre.all GetoptRet.goesOn = true) :
    (run fs seekErr writeErr argv).1 = 0 ∧
    (run fs seekErr writeErr argv).2.out = [usageText] ∧
    cstr "markelf" <:+: usageText ∧
    (run fs seekErr writeErr argv).2.err = [] ∧
    (run fs seekErr writeErr argv).2.trace = [] ∧
    (run fs seekErr writeErr argv).2.fs = fs := by
  have hlen : ¬ argv.length < 2 := by
    intro hl
    rw [tail_nil_of_short argv hl] at hev
    simp [getoptSeq] at hev
  have hp : parseOptions argv (Proc.start fs seekErr writeErr) =
      .inl (print_usage EXIT_SUCCESS (Proc.start fs seekErr writeErr)) := by
    rw [parseOptions, hev, optLoop_help pre post a _ _ _ hpre]
  have hrun : run fs seekErr writeErr argv =
      print_usage EXIT_SUCCESS (Proc.start fs seekErr writeErr) := by
    simp only [run, main, hlen, if_false, hp]
  rw [hrun]
  refine ⟨rfl, ?_, usageText_mentions_markelf, ?_, ?_, ?_⟩ <;>
    simp [print_usage, EXIT_SUCCESS, Proc.start]

/-- Witness of C14, amended: `markelf -b --help f`. -/
theorem help_prints_usage_witness :
    (run demoFs 0 0 [cstr "markelf", cstr "-b", cstr "--help", cstr "f"]).1 = 0 ∧
    (run demoFs 0 0 [cstr "markelf", cstr "-b", cstr "--help", cstr "f"]).2.out
      = [usageText] ∧
    cstr "markelf" <:+: usageText ∧
    (run demoFs 0 0 [cstr "markelf", cstr "-b", cstr "--help", cstr "f"]).2.err = [] ∧
    (run demoFs 0 0 [cstr "markelf", cstr "-b", cstr "--help", cstr "f"]).2.trace = [] ∧
    (run demoFs 0 0 [cstr "markelf", cstr "-b", cstr "--help", cstr "f"]).2.fs = demoFs :=
  help_prints_usage demoFs 0 0 [cstr "markelf", cstr "-b", cstr "--help", cstr "f"]
    [GetoptRet.opt 98 []] [] [] (by decide) (by decide)

/-! ## Runs in which the code departs from the specification -/

/-- C12, the code at the failing input `markelf -t 19 f`: `mark_elf_osabi`
    returns -1 on code 19 and warns, yet the run goes on to print the success
    line and exits with status 0. -/
theorem failed_patch_exits_zero :
    (∀ p : Proc, (mark_elf_osabi 19 p).1 = -1) ∧
    (run demoFs 0 0 [cstr "markelf", cstr "-t", cstr "19", cstr "f"]).1 = 0 ∧
    (run demoFs 0 0 [cstr "markelf", cstr "-t", cstr "19", cstr "f"]).2.err
      = [cstr "cannot set an unknown ABI version."] ∧
    (run demoFs 0 0 [cstr "markelf", cstr "-t", cstr "19", cstr "f"]).2.out
      = [cstr "ok: marking 'f' ABI to '19'.\n"] ∧
    (run demoFs 0 0 [cstr "markelf", cstr "-t", cstr "19", cstr "f"]).2.fs (cstr "f")
      = demoFs (cstr "f") := by
  refine ⟨fun p => by simp [mark_elf_osabi], by decide, by decide, by decide, by decide⟩

/-- C13, the code at the failing input `markelf -t 99999999999999999999 f`:
    the file is opened, `strtol` overflows, and the process exits inside
    `ascii_to_int` with status 1 without a call of `close`; on the path of an
    unknown name (`markelf -t nosuchname f`) the file is closed once before
    the exit. -/
theorem overflow_exit_skips_close :
    (run demoFs 0 0 [cstr "markelf", cstr "-t", cstr "99999999999999999999", cstr "f"]).1
      = 1 ∧
    (run demoFs 0 0 [cstr "markelf", cstr "-t", cstr "99999999999999999999", cstr "f"]).2.err
      = [cstr "strtol()"] ∧
    (run demoFs 0 0 [cstr "markelf", cstr "-t", cstr "99999999999999999999",
      cstr "f"]).2.trace = [Event.open (cstr "f")] ∧
    (run demoFs 0 0 [cstr "markelf", cstr "-t", cstr "99999999999999999999",
      cstr "f"]).2.trace.count Event.close = 0 ∧
    (run demoFs 0 0 [cstr "markelf", cstr "-t", cstr "nosuchname", cstr "f"]).2.trace
      = [Event.open (cstr "f"), Event.close] := by
  refine ⟨by decide, by decide, by decide, by decide, by decide⟩

/-- C15, the code at the failing input `markelf -c --to32 f`: the long options
    `--class`, `--type` and `--help` are returned by `getopt_long` as `-c`,
    `-t` and `-h` are, and so is `--to64` as `-b`, but `--to32`, the long form
    the usage text names, is not recognised: the run exits with status 1 and
    leaves the file as it was, where `-c -b` marks it 64-bit. -/
theorem to32_not_recognised :
    cstr "[b, to32]" <:+: usageText ∧
    (∀ tl, getoptSeq (cstr "--class" :: tl) = getoptSeq (cstr "-c" :: tl)) ∧
    (∀ v tl, getoptSeq (cstr "--type" :: v :: tl) = getoptSeq (cstr "-t" :: v :: tl)) ∧
    (∀ tl, getoptSeq (cstr "--help" :: tl) = getoptSeq (cstr "-h" :: tl)) ∧
    (∀ tl, getoptSeq (cstr "--to64" :: tl) = getoptSeq (cstr "-b" :: tl)) ∧
    (getoptSeq [cstr "--to32"]).1 = [GetoptRet.bad (cstr "unrecognized option")] ∧
    (run demoFs 0 0 [cstr "markelf", cstr "-c", cstr "--to32", cstr "f"]).1 = 1 ∧
    (run demoFs 0 0 [cstr "markelf", cstr "-c", cstr "--to32", cstr "f"]).2.fs = demoFs ∧
    (run demoFs 0 0 [cstr "markelf", cstr "-c", cstr "-b", cstr "f"]).1 = 0 ∧
    byteAt (run demoFs 0 0 [cstr "markelf", cstr "-c", cstr "-b", cstr "f"]).2.fs
      (cstr "f") 4 = some 2 := by
  have e1 : cstr "--class" = [45, 45, 99, 108, 97, 115, 115] := by decide
  have e2 : cstr "--type" = [45, 45, 116, 121, 112, 101] := by decide
  have e3 : cstr "--help" = [45, 45, 104, 101, 108, 112] := by decide
  have e4 : cstr "--to64" = [45, 45, 116, 111, 54, 52] := by decide
  have s1 : cstr "-c" = [45, 99] := by decide
  have s2 : cstr "-t" = [45, 116] := by decide
  have s3 : cstr "-h" = [45, 104] := by decide
  have s4 : cstr "-b" = [45, 98] := by decide
  have l1 : ∀ n, longOption [99, 108, 97, 115, 115] n = (GetoptRet.opt 99 [], false) := by
    intro n; cases n <;> rfl
  have l3 : ∀ n, longOption [104, 101, 108, 112] n = (GetoptRet.opt 104 [], false) := by
    intro n; cases n <;> rfl
  have l4 : ∀ n, longOption [116, 111, 54, 52] n = (GetoptRet.opt 98 [], false) := by
    intro n; cases n <;> rfl
  have l2 : ∀ v, longOption [116, 121, 112, 101] (some v) = (GetoptRet.opt 116 v, true) := by
    intro v; rfl
  have k1 : shortSpec optstring 99 = some false := by decide
  have k2 : shortSpec optstring 116 = some true := by decide
  have k3 : shortSpec optstring 104 = some false := by decide
  have k4 : shortSpec optstring 98 = some false := by decide
  have hu : cstr "[b, to32]" <:+: usageText := by
    have e : cstr "usage: [c, class], [t, type], [b, to32], [h, help]\n"
        = cstr "usage: [c, class], [t, type], " ++ (cstr "[b, to32]" ++ cstr ", [h, help]\n") := by
      decide
    unfold usageText
    rw [cstr_append, cstr_append, cstr_append, cstr_append, cstr_append, e]
    simp only [List.append_assoc]
    exact (List.infix_append' _ _ _).trans (List.suffix_append _ _).isInfix
  refine ⟨hu, ?_, ?_, ?_, ?_, by decide, by decide, rfl, by decide, by decide⟩
  · intro tl
    rw [e1, s1, getoptSeq_cons [45, 45, 99, 108, 97, 115, 115] tl, getoptSeq_cons [45, 99] tl]
    simp [l1, shortOptions, k1]
  · intro v tl
    rw [e2, s2, getoptSeq_cons [45, 45, 116, 121, 112, 101] (v :: tl),
      getoptSeq_cons [45, 116] (v :: tl)]
    simp [l2, shortOptions, k2]
  · intro tl
    rw [e3, s3, getoptSeq_cons [45, 45, 104, 101, 108, 112] tl, getoptSeq_cons [45, 104] tl]
    simp [l3, shortOptions, k3]
  · intro tl
    rw [e4, s4, getoptSeq_cons [45, 45, 116, 111, 54, 52] tl, getoptSeq_cons [45, 98] tl]
    simp [l4, shortOptions, k4]

/-- C18, the code at the failing input `markelf -t 4294967295 f`: the argument
    starts with a digit and its value, 4294967295, is above 18; `strtol` returns
    it, the cast to `int` makes it -1, the guard `vabi > 18` lets -1 pass, and
    byte 7 of the file is changed from 0 to 255.  Likewise `-t 4294967299`
    writes 3. -/
theorem narrowed_number_written :
    startsWithDigit (cstr "4294967295") = true ∧
    decVal (cstr "4294967295") = 4294967295 ∧
    (∀ p : Proc, p.errno = 0 → ascii_to_int (cstr "4294967295") p = .inr (-1, p)) ∧
    (run demoFs 0 0 [cstr "markelf", cstr "-t", cstr "4294967295", cstr "f"]).1 = 0 ∧
    byteAt demoFs (cstr "f") 7 = some 0 ∧
    byteAt (run demoFs 0 0 [cstr "markelf", cstr "-t", cstr "4294967295", cstr "f"]).2.fs
      (cstr "f") 7 = some 255 ∧
    byteAt (run demoFs 0 0 [cstr "markelf", cstr "-t", cstr "4294967299", cstr "f"]).2.fs
      (cstr "f") 7 = some 3 := by
  refine ⟨by decide, by decide, ?_, by decide, by decide, by decide, by decide⟩
  intro p he
  have hs : strtol (cstr "4294967295") = (4294967295, 10, 0) := by decide
  have h32 : toInt32 4294967295 = -1 := by decide
  simp [ascii_to_int, hs, he, h32]

/-! ## The two patches commute -/

theorem putByte_length_eq (f : List Nat) (pos b : Nat) :
    (putByte f pos b).length = max f.length (pos + 1) := by
  unfold putByte
  split
  · simp; omega
  · simp; omega

/-- The bytes of a file after one byte was written at `pos`. -/
theorem putByte_getElem? (f : List Nat) (pos b i : Nat) :
    (putByte f pos b)[i]? =
      if i = pos then some b
      else if i < f.length then f[i]?
      else if i < pos then some 0 else none := by
  unfold putByte
  by_cases hp : pos < f.length
  · rw [if_pos hp, List.getElem?_set]
    by_cases hi : i = pos
    · subst hi; simp [hp]
    · rw [if_neg (Ne.symm hi), if_neg hi]
      by_cases hl : i < f.length
      · rw [if_pos hl]
      · rw [if_neg hl, if_neg (by omega)]
        exact List.getElem?_eq_none (by omega)
  · rw [if_neg hp]
    by_cases hi : i = pos
    · subst hi
      rw [if_pos rfl, List.getElem?_append_right (by simp; omega)]
      have h0 : i - (f ++ List.replicate (i - f.length) 0).length = 0 := by
        simp only [List.length_append, List.length_replicate]
        omega
      rw [h0]
      rfl
    · rw [if_neg hi]
      by_cases hl : i < f.length
      · rw [if_pos hl, List.append_assoc, List.getElem?_append_left hl]
      · rw [if_neg hl]
        by_cases hlt : i < pos
        · rw [if_pos hlt, List.getElem?_append_left (by simp; omega),
            List.getElem?_append_right (by omega), List.getElem?_replicate,
            if_pos (by omega)]
        · rw [if_neg hlt]
          exact List.getElem?_eq_none (by simp; omega)

/-- Writing at offset 4 and writing at offset 7 give the same file in either
    order, whatever its length. -/
theorem putByte_comm_4_7 (f : List Nat) (a b : Nat) :
    putByte (putByte f 4 a) 7 b = putByte (putByte f 7 b) 4 a := by
  apply List.ext_getElem?
  intro i
  simp only [putByte_getElem?, putByte_length_eq]
  split_ifs <;> first | rfl | omega

/-- The ABI patch keeps a byte at offset 4. -/
theorem putByte_7_get_4 (f : List Nat) (b x : Nat) (h : f[4]? = some x) :
    (putByte f 7 b)[4]? = some x := by
  have hl : 4 < f.length := by
    by_contra hn
    rw [List.getElem?_eq_none (by omega)] at h
    cases h
  rw [putByte_getElem?, if_neg (by decide), if_pos hl, h]

/-- C16: for every state (any file content, any descriptor, whether or not the
    system calls succeed), every class argument and every code, the class patch
    followed by the ABI patch leaves the same files as the ABI patch followed
    by the class patch; the class patch leaves byte 7 of every file as it was,
    and the ABI patch leaves a byte 4 that a file has as it was. -/
theorem patches_commute (p : Proc) (v code : Int) :
    (mark_elf_osabi code (mark_elf_class v p).2).2.fs
      = (mark_elf_class v (mark_elf_osabi code p).2).2.fs ∧
    (∀ q, byteAt (mark_elf_class v p).2.fs q 7 = byteAt p.fs q 7) ∧
    (∀ q x, byteAt p.fs q 4 = some x → byteAt (mark_elf_osabi code p).2.fs q 4 = some x) := by
  refine ⟨?_, fun q => mark_elf_class_byte7 v p q, ?_⟩
  · unfold mark_elf_osabi mark_elf_class lseek write
    rcases hfd : p.fd with _ | ⟨path, off⟩
    · by_cases hc : code > 18 <;> simp [hc, warn, hfd]
    · by_cases hs : p.seekErr = 0 <;> by_cases hw : p.writeErr = 0 <;>
        by_cases hc : code > 18 <;> simp [hs, hw, hc, warn, hfd]
      funext q
      by_cases hq : q = path
      · simp [hq, putByte_comm_4_7]
      · simp [hq]
  · intro q x hx
    unfold mark_elf_osabi lseek write
    rcases hfd : p.fd with _ | ⟨path, off⟩
    · by_cases hc : code > 18 <;> simpa [hc, warn, hfd] using hx
    · by_cases hs : p.seekErr = 0 <;> by_cases hw : p.writeErr = 0 <;>
        by_cases hc : code > 18 <;> simp [hs, hw, hc, warn, hfd, hx]
      by_cases hq : q = path
      · subst hq
        rcases hf : p.fs q with _ | f
        · simp [byteAt, hf] at hx
        · simp only [byteAt, hf, Option.bind_some] at hx
          simp [byteAt, hf, putByte_7_get_4 f _ x hx]
      · simpa [byteAt, hq] using hx

end Markelf
